import Mathlib

/-!
A shallow embedding of the `wander-engine` world core (`src/world.rs`,
`src/world/entities.rs`, `src/world/layout.rs`, `src/world/agents.rs`),
together with proofs settling the specification claims.

Modelling conventions:
* `Entity` (Rust `Entity(u32)`) is a `Nat`; the `u32` overflow check of
  `World::spawn` (`checked_add`) is modelled explicitly against `2^32`.
* `FnvHashMap` / `FnvHashSet` are modelled as association lists / lists with
  key-replacing insertion; the hash maps' unspecified iteration order becomes
  the list order (one legitimate refinement of the Rust behaviour; no claim
  depends on iteration order beyond membership).
* Rust methods returning `Result<_, InvalidEntity>` become
  `Except InvalidEntity _`; an error performs no mutation (as in the source,
  where `meta_mut(..)?` is the first effectful step).
* Panics / `assert!` / `expect` / `unwrap` are process faults.  Mutating
  operations are given the type `World → .. → Except World (..)`, where
  `.error w` records the world state at the moment the process faults (that
  state is what had been mutated when the process died; it is not returned to
  any caller).  Read-only operations that may panic or diverge return
  `Option`.
* `coupled::Pair` (an unordered pair used as the space-distance key) is
  modelled as an order-normalised `Nat × Nat`.
* `Value` (`reagenz::Value<Entity>`, an opaque totally-ordered tagged union)
  is modelled as a closed inductive with the variants the core constructs
  (symbol, integer, list, entity reference); the float variant is never
  touched by this core and is omitted so that equality stays decidable.
* `while` loops that walk the parent chain (`object_space`) or the path
  worklist (`find_paths`) are given explicit fuel that provably dominates the
  loop on every acyclic input; on inputs where the Rust loop diverges the
  model returns `none` (also a non-returning execution).
-/

/-! ## Generic association-list maps and list sets

`FnvHashMap` is modelled as an association list with key-replacing insert;
`FnvHashSet` as a list with duplicate-free insert. -/

/-- Model of `HashMap::get`: first binding of the key, if any. -/
def alookup {α β : Type} [DecidableEq α] (k : α) : List (α × β) → Option β
  | [] => none
  | p :: r => if p.1 = k then some p.2 else alookup k r

/-- Model of `HashMap::insert`: drop any old binding of the key, append the new one. -/
def ainsert {α β : Type} [DecidableEq α] (k : α) (v : β) (l : List (α × β)) :
    List (α × β) :=
  l.filter (fun p => p.1 ≠ k) ++ [(k, v)]

/-- Model of `HashMap::remove` (the removed value, if any, is read via `alookup`). -/
def aremove {α β : Type} [DecidableEq α] (k : α) (l : List (α × β)) :
    List (α × β) :=
  l.filter (fun p => p.1 ≠ k)

/-- Model of `HashSet::insert`: append the element unless already present. -/
def sinsert {α : Type} [DecidableEq α] (x : α) (l : List α) : List α :=
  if x ∈ l then l else l ++ [x]

/-- Model of `HashSet::remove`. -/
def sremove {α : Type} [DecidableEq α] (x : α) (l : List α) : List α :=
  l.filter (fun y => y ≠ x)

/-! ## The opaque script value type (`reagenz::Value<Entity>`) -/

inductive Value where
  | sym : String → Value
  | int : Int → Value
  | list : List Value → Value
  | ext : Nat → Value

mutual

def Value.beq : Value → Value → Bool
  | .sym a, .sym b => a == b
  | .int a, .int b => a == b
  | .list a, .list b => Value.beqList a b
  | .ext a, .ext b => a == b
  | _, _ => false

def Value.beqList : List Value → List Value → Bool
  | [], [] => true
  | x :: xs, y :: ys => Value.beq x y && Value.beqList xs ys
  | _, _ => false

end

mutual

theorem Value.eq_of_beq : ∀ {a b : Value}, Value.beq a b = true → a = b
  | .sym _, .sym _, h => by simp [Value.beq] at h; simp [h]
  | .int _, .int _, h => by simp [Value.beq] at h; simp [h]
  | .list x, .list y, h => by
      simp only [Value.beq] at h
      have := Value.eqList_of_beqList h
      simp [this]
  | .ext _, .ext _, h => by simp [Value.beq] at h; simp [h]
  | .sym _, .int _, h => by simp [Value.beq] at h
  | .sym _, .list _, h => by simp [Value.beq] at h
  | .sym _, .ext _, h => by simp [Value.beq] at h
  | .int _, .sym _, h => by simp [Value.beq] at h
  | .int _, .list _, h => by simp [Value.beq] at h
  | .int _, .ext _, h => by simp [Value.beq] at h
  | .list _, .sym _, h => by simp [Value.beq] at h
  | .list _, .int _, h => by simp [Value.beq] at h
  | .list _, .ext _, h => by simp [Value.beq] at h
  | .ext _, .sym _, h => by simp [Value.beq] at h
  | .ext _, .int _, h => by simp [Value.beq] at h
  | .ext _, .list _, h => by simp [Value.beq] at h

theorem Value.eqList_of_beqList : ∀ {a b : List Value}, Value.beqList a b = true → a = b
  | [], [], _ => rfl
  | x :: xs, y :: ys, h => by
      simp only [Value.beqList, Bool.and_eq_true] at h
      have h1 := Value.eq_of_beq h.1
      have h2 := Value.eqList_of_beqList h.2
      simp [h1, h2]
  | [], _ :: _, h => by simp [Value.beqList] at h
  | _ :: _, [], h => by simp [Value.beqList] at h

end

mutual

theorem Value.beq_rfl : ∀ (a : Value), Value.beq a a = true
  | .sym _ => by simp [Value.beq]
  | .int _ => by simp [Value.beq]
  | .list x => by simp only [Value.beq]; exact Value.beqList_rfl x
  | .ext _ => by simp [Value.beq]

theorem Value.beqList_rfl : ∀ (a : List Value), Value.beqList a a = true
  | [] => rfl
  | x :: xs => by
      simp only [Value.beqList, Bool.and_eq_true]
      exact ⟨Value.beq_rfl x, Value.beqList_rfl xs⟩

end

instance : DecidableEq Value := fun a b =>
  if h : Value.beq a b = true then .isTrue (Value.eq_of_beq h)
  else .isFalse (fun e => h (e ▸ Value.beq_rfl a))

/-! ## Entities and the world state -/

/-- Model of `Entity(u32)` — identity is the integer only. -/
abbrev Entity := Nat

/-- Exclusive upper bound of the `u32` entity counter. -/
def entityIdLimit : Nat := 2 ^ 32

/-- The recoverable error marker (`struct InvalidEntity`). -/
inductive InvalidEntity where
  | mk
deriving DecidableEq

/-- Model of `EntityResult<T> = Result<T, InvalidEntity>`. -/
abbrev EntityResult (α : Type) := Except InvalidEntity α

/-- Per-entity record (`struct EntityMeta` in `entities.rs`). -/
structure EntityMeta where
  identifier : Option String
  global_attributes : List (Value × Value)
  global_tags : List Value
  agent_attributes : List (Entity × List (Value × Value))
  agent_tags : List (Entity × List Value)
deriving DecidableEq

/-- The empty record created by `spawn`. -/
def emptyMeta : EntityMeta :=
  { identifier := none, global_attributes := [], global_tags := [],
    agent_attributes := [], agent_tags := [] }

instance : Inhabited EntityMeta := ⟨emptyMeta⟩

/-- Model of `struct PortalTarget` in `layout.rs`. -/
structure PortalTarget where
  portal : Entity
  target_object : Entity
deriving DecidableEq

/-- The topology fields of `WorldLayout` that the path/distance computation
reads (`spaces`, `object_parents`, `portal_objects`).  Factored out so that
the derived-cache computation is manifestly a function of these fields
alone. -/
structure Topo where
  spaces : List Entity
  object_parents : List (Entity × Entity)
  portal_objects : List (Entity × PortalTarget)
deriving DecidableEq

/-- The whole world state: `WorldEntities` + `WorldLayout` + `WorldAgents`. -/
structure World where
  next_entity_id : Nat
  meta : List (Entity × EntityMeta)
  spaces : List Entity
  object_parents : List (Entity × Entity)
  kinds : List (Entity × Value)
  portals : List Entity
  portal_objects : List (Entity × PortalTarget)
  paths : List ((Entity × Entity) × List Value)
  space_distances : List ((Entity × Entity) × Nat)
  agent_locations : List (Entity × Entity)
  agent_position : List (Entity × Value)
deriving DecidableEq

/-- Model of `World::default()`. -/
def World.empty : World :=
  { next_entity_id := 0, meta := [], spaces := [], object_parents := [],
    kinds := [], portals := [], portal_objects := [], paths := [],
    space_distances := [], agent_locations := [], agent_position := [] }

/-- The topology slice of a world. -/
def World.topo (w : World) : Topo :=
  { spaces := w.spaces, object_parents := w.object_parents,
    portal_objects := w.portal_objects }

/-! ## Entity management (`entities.rs`) -/

/-- Model of `World::spawn`.  `checked_add(1).expect(..)` is a process fault when the
counter sits at `u32::MAX`; the fault state is the untouched world. -/
def World.spawn (w : World) : Except World (Entity × World) :=
  let idx := w.next_entity_id
  if idx + 1 < entityIdLimit then
    .ok (idx, { w with next_entity_id := idx + 1,
                       meta := ainsert idx emptyMeta w.meta })
  else
    .error w

/-- The observer-key scrub applied to each remaining record by
`World::despawn`. -/
def scrubObserver (entity : Entity) (p : Entity × EntityMeta) : Entity × EntityMeta :=
  (p.1, { p.2 with agent_attributes := aremove entity p.2.agent_attributes })

/-- Model of `World::despawn`: drop the entity's own record, then scrub it as an
observer key from every remaining record's `agent_attributes` (and only
there — `agent_tags` is left alone, as in the source). -/
def World.despawn (w : World) (entity : Entity) : World :=
  { w with meta := (aremove entity w.meta).map (scrubObserver entity) }

/-- Model of `World::contains`. -/
def World.contains (w : World) (entity : Entity) : Bool :=
  (alookup entity w.meta).isSome

/-- Model of `World::meta` (`Result<&EntityMeta, InvalidEntity>`). -/
def World.metaOf (w : World) (entity : Entity) : EntityResult EntityMeta :=
  match alookup entity w.meta with
  | some m => .ok m
  | none => .error .mk

/-- Write back a modified record, as through `meta_mut`. -/
def setMeta (w : World) (entity : Entity) (m : EntityMeta) : World :=
  { w with meta := ainsert entity m w.meta }

/-- Model of `World::set_identifier`: `meta_mut(entity).expect("valid entity")` is a
process fault on a missing record. -/
def World.set_identifier (w : World) (entity : Entity) (identifier : String) :
    Option World :=
  match alookup entity w.meta with
  | some m => some (setMeta w entity { m with identifier := some identifier })
  | none => none

/-- Model of `World::identifier`: `meta(entity).ok().and_then(..)` — a missing record
reads as `None`, not as an error. -/
def World.identifier (w : World) (entity : Entity) : Option String :=
  (alookup entity w.meta).bind (fun m => m.identifier)

/-- Model of `World::set_global_attribute_value`. -/
def World.set_global_attribute_value (w : World) (entity : Entity)
    (attr value : Value) : EntityResult World :=
  match alookup entity w.meta with
  | some m => .ok (setMeta w entity
      { m with global_attributes := ainsert attr value m.global_attributes })
  | none => .error .mk

/-- Model of `World::clear_global_attribute_value` (returns the removed value). -/
def World.clear_global_attribute_value (w : World) (entity : Entity)
    (attr : Value) : EntityResult (Option Value × World) :=
  match alookup entity w.meta with
  | some m => .ok (alookup attr m.global_attributes,
      setMeta w entity { m with global_attributes := aremove attr m.global_attributes })
  | none => .error .mk

/-- Model of `World::global_attribute_value`. -/
def World.global_attribute_value (w : World) (entity : Entity) (attr : Value) :
    EntityResult (Option Value) :=
  match alookup entity w.meta with
  | some m => .ok (alookup attr m.global_attributes)
  | none => .error .mk

/-- Model of `World::global_attributes` (the iterator, as a list). -/
def World.global_attributes (w : World) (entity : Entity) :
    EntityResult (List (Value × Value)) :=
  match alookup entity w.meta with
  | some m => .ok m.global_attributes
  | none => .error .mk

/-- Model of `World::set_global_tag`. -/
def World.set_global_tag (w : World) (entity : Entity) (tag : Value) :
    EntityResult World :=
  match alookup entity w.meta with
  | some m => .ok (setMeta w entity { m with global_tags := sinsert tag m.global_tags })
  | none => .error .mk

/-- Model of `World::clear_global_tag`. -/
def World.clear_global_tag (w : World) (entity : Entity) (tag : Value) :
    EntityResult World :=
  match alookup entity w.meta with
  | some m => .ok (setMeta w entity { m with global_tags := sremove tag m.global_tags })
  | none => .error .mk

/-- Model of `World::global_tags` (the iterator, as a list). -/
def World.global_tags (w : World) (entity : Entity) :
    EntityResult (List Value) :=
  match alookup entity w.meta with
  | some m => .ok m.global_tags
  | none => .error .mk

/-- Model of `World::contains_global_tag`. -/
def World.contains_global_tag (w : World) (entity : Entity) (tag : Value) :
    EntityResult Bool :=
  match alookup entity w.meta with
  | some m => .ok (decide (tag ∈ m.global_tags))
  | none => .error .mk

/-- Model of `World::set_agent_attribute_value`
(`agent_attributes.entry(agent).or_default().insert(..)`). -/
def World.set_agent_attribute_value (w : World) (agent entity : Entity)
    (attr value : Value) : EntityResult World :=
  match alookup entity w.meta with
  | some m =>
      let am := (alookup agent m.agent_attributes).getD []
      .ok (setMeta w entity
        { m with agent_attributes := ainsert agent (ainsert attr value am) m.agent_attributes })
  | none => .error .mk

/-- Model of `World::clear_agent_attribute_value`: an absent observer namespace reads
as `Ok(None)` with no mutation. -/
def World.clear_agent_attribute_value (w : World) (agent entity : Entity)
    (attr : Value) : EntityResult (Option Value × World) :=
  match alookup entity w.meta with
  | some m =>
      match alookup agent m.agent_attributes with
      | some am => .ok (alookup attr am,
          setMeta w entity
            { m with agent_attributes := ainsert agent (aremove attr am) m.agent_attributes })
      | none => .ok (none, w)
  | none => .error .mk

/-- Model of `World::agent_attribute_value`. -/
def World.agent_attribute_value (w : World) (agent entity : Entity)
    (attr : Value) : EntityResult (Option Value) :=
  match alookup entity w.meta with
  | some m => .ok ((alookup agent m.agent_attributes).bind (alookup attr))
  | none => .error .mk

/-- Model of `World::agent_attributes`: an absent observer namespace iterates as
empty. -/
def World.agent_attributes (w : World) (agent entity : Entity) :
    EntityResult (List (Value × Value)) :=
  match alookup entity w.meta with
  | some m => .ok ((alookup agent m.agent_attributes).getD [])
  | none => .error .mk

/-- Model of `World::set_agent_tag`. -/
def World.set_agent_tag (w : World) (agent entity : Entity) (tag : Value) :
    EntityResult World :=
  match alookup entity w.meta with
  | some m =>
      let ts := (alookup agent m.agent_tags).getD []
      .ok (setMeta w entity
        { m with agent_tags := ainsert agent (sinsert tag ts) m.agent_tags })
  | none => .error .mk

/-- Model of `World::clear_agent_tag`: an absent observer namespace is a silent
no-op. -/
def World.clear_agent_tag (w : World) (agent entity : Entity) (tag : Value) :
    EntityResult World :=
  match alookup entity w.meta with
  | some m =>
      match alookup agent m.agent_tags with
      | some ts => .ok (setMeta w entity
          { m with agent_tags := ainsert agent (sremove tag ts) m.agent_tags })
      | none => .ok w
  | none => .error .mk

/-- Model of `World::agent_tags`. -/
def World.agent_tags (w : World) (agent entity : Entity) :
    EntityResult (List Value) :=
  match alookup entity w.meta with
  | some m => .ok ((alookup agent m.agent_tags).getD [])
  | none => .error .mk

/-- Model of `World::has_agent_tag` (`map_or(false, ..)` on the observer namespace). -/
def World.has_agent_tag (w : World) (agent entity : Entity) (tag : Value) :
    EntityResult Bool :=
  match alookup entity w.meta with
  | some m => .ok (match alookup agent m.agent_tags with
      | some ts => decide (tag ∈ ts)
      | none => false)
  | none => .error .mk

/-! ## Spatial layout (`layout.rs`)

The path/distance computation reads only the `Topo` slice of the world, so
its algorithmic core is defined on `Topo` and lifted to `World`. -/

/-- Model of `World::is_space` (on the topology slice). -/
def Topo.is_space (t : Topo) (entity : Entity) : Bool :=
  decide (entity ∈ t.spaces)

/-- Model of `World::is_object`. -/
def Topo.is_object (t : Topo) (entity : Entity) : Bool :=
  (alookup entity t.object_parents).isSome

/-- Model of `World::object_parent`. -/
def Topo.object_parent (t : Topo) (object : Entity) : Option Entity :=
  alookup object t.object_parents

/-- Model of `World::is_area`: an object whose parent is a space. -/
def Topo.is_area (t : Topo) (entity : Entity) : Bool :=
  t.is_object entity &&
    (match t.object_parent entity with
     | some parent => t.is_space parent
     | none => false)

/-- Model of `World::child_objects`: all map entries whose parent equals `parent`. -/
def Topo.child_objects (t : Topo) (parent : Entity) : List Entity :=
  t.object_parents.filterMap
    (fun p => if p.2 = parent then some p.1 else none)

/-- Model of `World::areas`: first-level objects of every space. -/
def Topo.areas (t : Topo) : List Entity :=
  t.spaces.flatMap t.child_objects

/-- Model of `World::object_portal_target`. -/
def Topo.object_portal_target (t : Topo) (object : Entity) : Option Entity :=
  (alookup object t.portal_objects).map (fun pt => pt.target_object)

/-- The `while !is_space` walk of `World::object_space`, with explicit fuel.
Every step consumes a distinct `object_parents` key on an acyclic map, so
`|object_parents| + 1` fuel dominates the Rust loop there; on a cyclic map
the Rust loop diverges and the model yields `none`. -/
def objectSpaceGo (t : Topo) : Nat → Entity → Option Entity
  | 0, _ => none
  | fuel + 1, entity =>
      if t.is_space entity then some entity
      else
        match t.object_parent entity with
        | some parent => objectSpaceGo t fuel parent
        | none => none

/-- Model of `World::object_space`. -/
def Topo.object_space (t : Topo) (object : Entity) : Option Entity :=
  objectSpaceGo t (t.object_parents.length + 1) object

/-- The extensions `find_paths` pushes for one popped path: the
portal-linked area of the last area (if any), then every local area of the
last area's space — each only when not already on the path.  `none` models
the `object_space(..).unwrap()` process fault (or divergence) on a broken
parent chain. -/
def pushesOf (t : Topo) (path : List Entity) : Option (List (List Entity)) :=
  match path.getLast? with
  | none => none
  | some last =>
      match t.object_space last with
      | none => none
      | some space =>
          let portalExt :=
            match t.object_portal_target last with
            | some target => if target ∈ path then [] else [path ++ [target]]
            | none => []
          let localExt := (t.child_objects space).filterMap
            (fun l => if l ∈ path then none else some (path ++ [l]))
          some (portalExt ++ localExt)

/-- The `while let Some(path) = buffer.pop_front()` worklist of
`World::find_paths`: pop a path, record it when longer than one area, push
its extensions at the back.  Fuel bounds the number of iterations; the Rust
loop provably performs finitely many (every queued path is a duplicate-free
sequence over the finite area universe), so a generous fuel is used at the
top level. -/
def findPathsLoop (t : Topo) :
    Nat → List (List Entity) → List (List Entity) → Option (List (List Entity))
  | 0, _, _ => none
  | _ + 1, [], acc => some acc
  | fuel + 1, path :: buffer, acc =>
      match pushesOf t path with
      | none => none
      | some exts =>
          findPathsLoop t fuel (buffer ++ exts)
            (if 1 < path.length then acc ++ [path] else acc)

/-- Fuel that dominates the worklist on every input it terminates on. -/
def Topo.fuelBound (t : Topo) : Nat :=
  let u := t.object_parents.length + t.portal_objects.length + 2
  (2 * u) ^ u

/-- Model of `World::find_paths`: every simple area-path of length ≥ 2, starting from
the single-area worklist seeded by `areas()`. -/
def Topo.findPaths (t : Topo) : Option (List (List Entity)) :=
  findPathsLoop t t.fuelBound (t.areas.map (fun area => [area])) []

/-- Model of `coupled::Pair::new`: the unordered space pair, order-normalised. -/
def pairOf (a b : Entity) : Entity × Entity :=
  if a ≤ b then (a, b) else (b, a)

/-- Model of `Vec::sort` on entities (insertion sort; sortedness is all that the
subsequent `dedup` uses). -/
def insertSorted (x : Entity) : List Entity → List Entity
  | [] => [x]
  | y :: r => if x ≤ y then x :: y :: r else y :: insertSorted x r

def sortEntities : List Entity → List Entity
  | [] => []
  | x :: r => insertSorted x (sortEntities r)

/-- Model of `Vec::dedup`: remove consecutive duplicates. -/
def dedupConsec : List Entity → List Entity
  | [] => []
  | [a] => [a]
  | a :: b :: r => if a = b then dedupConsec (b :: r) else a :: dedupConsec (b :: r)

/-- Map every area of a path to its owning space
(`path.into_iter().map(|area| object_space(area).unwrap())`); `none` is the
`unwrap` process fault. -/
def spacesOfPath (t : Topo) : List Entity → Option (List Entity)
  | [] => some []
  | area :: r =>
      match t.object_space area with
      | none => none
      | some s =>
          match spacesOfPath t r with
          | none => none
          | some ss => some (s :: ss)

/-- The space-distance cache. -/
abbrev SDMap := List ((Entity × Entity) × Nat)

/-- Model of `entry(key).and_modify(|c| *c = min(c, n)).or_insert(n)`. -/
def sdUpdateMin (key : Entity × Entity) (n : Nat) (m : SDMap) : SDMap :=
  match alookup key m with
  | some current => ainsert key (min current n) m
  | none => ainsert key n m

/-- One iteration of `recalculate_space_distances`' loop: map the path to
spaces, key on (first space, last space), sort + dedup, skip when fewer than
two distinct spaces, otherwise keep the minimum.  `.error` carries the cache
as mutated when the process faults. -/
def sdStep (t : Topo) (m : SDMap) (path : List Entity) : Except SDMap SDMap :=
  match spacesOfPath t path with
  | none => .error m
  | some ss =>
      match ss.head?, ss.getLast? with
      | some first, some last =>
          if (dedupConsec (sortEntities ss)).length < 2 then .ok m
          else .ok (sdUpdateMin (pairOf first last)
            (dedupConsec (sortEntities ss)).length m)
      | _, _ => .error m

def sdFold (t : Topo) : List (List Entity) → SDMap → Except SDMap SDMap
  | [], m => .ok m
  | path :: rest, m =>
      match sdStep t m path with
      | .error m' => .error m'
      | .ok m' => sdFold t rest m'

/-- The space-distance cache as a pure function of the topology: what
`recalculate_space_distances` stores when it completes. -/
def Topo.sdOf (t : Topo) : Option SDMap :=
  match t.findPaths with
  | none => none
  | some ps =>
      match sdFold t ps [] with
      | .error _ => none
      | .ok m => some m

/-- The path cache. -/
abbrev PMap := List ((Entity × Entity) × List Value)

/-- The cached path value: `path.iter().rev().fold(List [], |prev, area|
List [Ext area, prev])` — innermost is the last area. -/
def pathValue (path : List Entity) : Value :=
  path.reverse.foldl (fun prev area => Value.list [Value.ext area, prev])
    (Value.list [])

/-- One iteration of `recalculate_paths`' loop:
`entry((first, last)).or_default().push(..)`. -/
def pStep (m : PMap) (path : List Entity) : Except PMap PMap :=
  match path.head?, path.getLast? with
  | some first, some last =>
      .ok (ainsert (first, last)
        (((alookup (first, last) m).getD []) ++ [pathValue path]) m)
  | _, _ => .error m

def pFold : List (List Entity) → PMap → Except PMap PMap
  | [], m => .ok m
  | path :: rest, m =>
      match pStep m path with
      | .error m' => .error m'
      | .ok m' => pFold rest m'

/-- Model of `World::recalculate_paths`: clear the cache, then fold the enumerated
paths into it.  The cache is cleared before `find_paths` runs, so a fault
during enumeration leaves it cleared. -/
def World.recalculate_paths (w : World) : Except World World :=
  let w := { w with paths := [] }
  match w.topo.findPaths with
  | none => .error w
  | some ps =>
      match pFold ps [] with
      | .error m => .error { w with paths := m }
      | .ok m => .ok { w with paths := m }

/-- Model of `World::recalculate_space_distances`. -/
def World.recalculate_space_distances (w : World) : Except World World :=
  let w := { w with space_distances := [] }
  match w.topo.findPaths with
  | none => .error w
  | some ps =>
      match sdFold w.topo ps [] with
      | .error m => .error { w with space_distances := m }
      | .ok m => .ok { w with space_distances := m }

/-- Model of `World::recalculate`: paths first, then space distances. -/
def World.recalculate (w : World) : Except World World :=
  match w.recalculate_paths with
  | .error wf => .error wf
  | .ok w => w.recalculate_space_distances

/-- Model of `World::is_space` on the world. -/
def World.is_space (w : World) (entity : Entity) : Bool :=
  w.topo.is_space entity

/-- Model of `World::is_object` on the world. -/
def World.is_object (w : World) (entity : Entity) : Bool :=
  w.topo.is_object entity

/-- Model of `World::is_area` on the world. -/
def World.is_area (w : World) (entity : Entity) : Bool :=
  w.topo.is_area entity

/-- Model of `World::object_space` on the world. -/
def World.object_space (w : World) (object : Entity) : Option Entity :=
  w.topo.object_space object

/-- Model of `World::spaces_by_distance`: every space with a cached distance to
`source`, in ascending distance order.  `sort_by_key` is a stable sort;
insertion placing an element before the first strictly larger key (under
the `foldr` structure) reproduces one stable order. -/
def insertByDist (x : Entity × Nat) : List (Entity × Nat) → List (Entity × Nat)
  | [] => [x]
  | y :: r => if x.2 ≤ y.2 then x :: y :: r else y :: insertByDist x r

def sortByDist : List (Entity × Nat) → List (Entity × Nat)
  | [] => []
  | x :: r => insertByDist x (sortByDist r)

def World.spaces_by_distance (w : World) (source : Entity) : List Entity :=
  let pairs := w.spaces.filterMap (fun space =>
    (alookup (pairOf source space) w.space_distances).map (fun d => (space, d)))
  (sortByDist pairs).map Prod.fst

/-- Model of `World::create_space`: spawn, register as a space with its kind, then
recompute both caches. -/
def World.create_space (w : World) (kind : Value) : Except World (Entity × World) :=
  match w.spawn with
  | .error wf => .error wf
  | .ok (entity, w) =>
      let w := { w with spaces := sinsert entity w.spaces,
                        kinds := ainsert entity kind w.kinds }
      match w.recalculate with
      | .error wf => .error wf
      | .ok w => .ok (entity, w)

/-- Model of `World::create_object`: `assert!(is_space(parent) || is_object(parent))`
is a process fault before any mutation. -/
def World.create_object (w : World) (kind : Value) (parent : Entity) :
    Except World (Entity × World) :=
  if w.is_space parent || w.is_object parent then
    match w.spawn with
    | .error wf => .error wf
    | .ok (entity, w) =>
        let w := { w with object_parents := ainsert entity parent w.object_parents,
                          kinds := ainsert entity kind w.kinds }
        match w.recalculate with
        | .error wf => .error wf
        | .ok w => .ok (entity, w)
  else .error w

/-- Model of `World::create_portal`: assert both sides are spaces, spawn the portal,
create one portal object per side, cross-register them, recompute. -/
def World.create_portal (w : World) (kind : Value) (sides : Entity × Entity) :
    Except World (Entity × World) :=
  if w.is_space sides.1 then
    if w.is_space sides.2 then
      match w.spawn with
      | .error wf => .error wf
      | .ok (portal, w) =>
          let w := { w with portals := sinsert portal w.portals,
                            kinds := ainsert portal kind w.kinds }
          match w.create_object kind sides.1 with
          | .error wf => .error wf
          | .ok (oa, w) =>
              match w.create_object kind sides.2 with
              | .error wf => .error wf
              | .ok (ob, w) =>
                  let w := { w with portal_objects := ainsert ob (PortalTarget.mk portal oa) (ainsert oa (PortalTarget.mk portal ob) w.portal_objects) }
                  match w.recalculate with
                  | .error wf => .error wf
                  | .ok w => .ok (portal, w)
    else .error w
  else .error w

/-! ## Agents (`agents.rs`) -/

/-- Model of `World::is_agent`. -/
def World.is_agent (w : World) (entity : Entity) : Bool :=
  (alookup entity w.agent_locations).isSome

/-- Model of `World::create_agent`: `assert!(is_area(location))` is a process fault
before any mutation; no cache recomputation happens here. -/
def World.create_agent (w : World) (location : Entity) :
    Except World (Entity × World) :=
  if w.is_area location then
    match w.spawn with
    | .error wf => .error wf
    | .ok (agent, w) =>
        .ok (agent, { w with agent_locations := ainsert agent location w.agent_locations })
  else .error w

/-- Model of `World::set_agent_location`: `get_mut(..).expect("valid agent")` is a
process fault for an unregistered agent; no re-validation of the location. -/
def World.set_agent_location (w : World) (agent location : Entity) :
    Option World :=
  match alookup agent w.agent_locations with
  | some _ => some { w with agent_locations := ainsert agent location w.agent_locations }
  | none => none

/-- Model of `World::agent_location`. -/
def World.agent_location (w : World) (entity : Entity) : Option Entity :=
  alookup entity w.agent_locations

/-- Model of `World::set_agent_position`: asserts the entity is a registered agent. -/
def World.set_agent_position (w : World) (agent : Entity) (position : Value) :
    Option World :=
  if w.is_agent agent then
    some { w with agent_position := ainsert agent position w.agent_position }
  else none

/-- Model of `World::clear_agent_position`: asserts the entity is a registered
agent. -/
def World.clear_agent_position (w : World) (agent : Entity) : Option World :=
  if w.is_agent agent then
    some { w with agent_position := aremove agent w.agent_position }
  else none

/- `World::agent_position` is `alookup agent w.agent_position`; the struct
field doubles as the read accessor here. -/

/-! ## Reachable world states

Every field of `World` is private to the `world` module; outside callers can
only obtain `World::default()` and transform it through the public mutation
API, so the states of the running program are exactly these. -/

inductive Reachable : World → Prop where
  | init : Reachable World.empty
  | create_space {w k e w'} : Reachable w →
      w.create_space k = .ok (e, w') → Reachable w'
  | create_object {w k p e w'} : Reachable w →
      w.create_object k p = .ok (e, w') → Reachable w'
  | create_portal {w k s e w'} : Reachable w →
      w.create_portal k s = .ok (e, w') → Reachable w'
  | create_agent {w l e w'} : Reachable w →
      w.create_agent l = .ok (e, w') → Reachable w'
  | despawn {w} (e) : Reachable w → Reachable (w.despawn e)
  | set_identifier {w e s w'} : Reachable w →
      w.set_identifier e s = some w' → Reachable w'
  | set_global_attribute_value {w e a v w'} : Reachable w →
      w.set_global_attribute_value e a v = .ok w' → Reachable w'
  | clear_global_attribute_value {w e a r w'} : Reachable w →
      w.clear_global_attribute_value e a = .ok (r, w') → Reachable w'
  | set_global_tag {w e t w'} : Reachable w →
      w.set_global_tag e t = .ok w' → Reachable w'
  | clear_global_tag {w e t w'} : Reachable w →
      w.clear_global_tag e t = .ok w' → Reachable w'
  | set_agent_attribute_value {w a e k v w'} : Reachable w →
      w.set_agent_attribute_value a e k v = .ok w' → Reachable w'
  | clear_agent_attribute_value {w a e k r w'} : Reachable w →
      w.clear_agent_attribute_value a e k = .ok (r, w') → Reachable w'
  | set_agent_tag {w a e t w'} : Reachable w →
      w.set_agent_tag a e t = .ok w' → Reachable w'
  | clear_agent_tag {w a e t w'} : Reachable w →
      w.clear_agent_tag a e t = .ok w' → Reachable w'
  | set_agent_location {w a l w'} : Reachable w →
      w.set_agent_location a l = some w' → Reachable w'
  | set_agent_position {w a v w'} : Reachable w →
      w.set_agent_position a v = some w' → Reachable w'
  | clear_agent_position {w a w'} : Reachable w →
      w.clear_agent_position a = some w' → Reachable w'

/-! ## Association-list lemmas -/

theorem alookup_append {α β : Type} [DecidableEq α] (k : α)
    (l1 l2 : List (α × β)) :
    alookup k (l1 ++ l2) =
      match alookup k l1 with
      | some v => some v
      | none => alookup k l2 := by
  induction l1 with
  | nil => simp [alookup]
  | cons p r ih =>
      by_cases h : p.1 = k
      · simp [alookup, h]
      · simp [alookup, h, ih]

theorem alookup_filter_self {α β : Type} [DecidableEq α] (k : α)
    (l : List (α × β)) :
    alookup k (l.filter (fun p => p.1 ≠ k)) = none := by
  induction l with
  | nil => simp [alookup]
  | cons p r ih =>
      by_cases h : p.1 = k
      · simpa [h] using ih
      · simpa [h, alookup] using ih

theorem alookup_filter_ne {α β : Type} [DecidableEq α] {k k' : α}
    (l : List (α × β)) (h : k' ≠ k) :
    alookup k' (l.filter (fun p => p.1 ≠ k)) = alookup k' l := by
  induction l with
  | nil => rfl
  | cons p r ih =>
      by_cases hp : p.1 = k <;> by_cases hk : p.1 = k' <;>
        simp_all [alookup, List.filter_cons]

theorem alookup_ainsert_self {α β : Type} [DecidableEq α] (k : α) (v : β)
    (l : List (α × β)) : alookup k (ainsert k v l) = some v := by
  unfold ainsert
  rw [alookup_append, alookup_filter_self]
  simp [alookup]

theorem alookup_ainsert_ne {α β : Type} [DecidableEq α] {k k' : α} (v : β)
    (l : List (α × β)) (h : k' ≠ k) :
    alookup k' (ainsert k v l) = alookup k' l := by
  unfold ainsert
  rw [alookup_append, alookup_filter_ne l h]
  cases hl : alookup k' l with
  | some v' => rfl
  | none =>
      have hne : ¬ k = k' := fun e => h (Eq.symm e)
      simp [alookup, hne]

theorem alookup_aremove_self {α β : Type} [DecidableEq α] (k : α)
    (l : List (α × β)) : alookup k (aremove k l) = none :=
  alookup_filter_self k l

theorem alookup_aremove_ne {α β : Type} [DecidableEq α] {k k' : α}
    (l : List (α × β)) (h : k' ≠ k) :
    alookup k' (aremove k l) = alookup k' l :=
  alookup_filter_ne l h

theorem mem_of_alookup_eq_some {α β : Type} [DecidableEq α] {k : α} {v : β}
    {l : List (α × β)} (h : alookup k l = some v) : (k, v) ∈ l := by
  induction l with
  | nil => simp [alookup] at h
  | cons p r ih =>
      obtain ⟨pk, pv⟩ := p
      by_cases hp : pk = k
      · simp only [alookup, hp, if_pos] at h
        subst hp
        obtain rfl : pv = v := by simpa using h
        exact List.mem_cons_self _ _
      · simp only [alookup, hp, if_neg, not_false_iff] at h
        exact List.mem_cons_of_mem _ (ih h)

theorem mem_ainsert_elim {α β : Type} [DecidableEq α] {k : α} {v : β}
    {p : α × β} {l : List (α × β)} (h : p ∈ ainsert k v l) :
    p = (k, v) ∨ p ∈ l := by
  rcases List.mem_append.1 h with h' | h'
  · exact Or.inr (List.mem_of_mem_filter h')
  · simp only [List.mem_singleton] at h'
    exact Or.inl h'

theorem mem_ainsert_self {α β : Type} [DecidableEq α] (k : α) (v : β)
    (l : List (α × β)) : (k, v) ∈ ainsert k v l := by
  simp [ainsert]

theorem mem_ainsert_of_ne {α β : Type} [DecidableEq α] {k : α} (v : β)
    {p : α × β} {l : List (α × β)} (hp : p ∈ l) (h : p.1 ≠ k) :
    p ∈ ainsert k v l :=
  List.mem_append.2 (Or.inl (List.mem_filter.2 ⟨hp, by simpa using h⟩))

theorem mem_aremove_elim {α β : Type} [DecidableEq α] {k : α}
    {p : α × β} {l : List (α × β)} (h : p ∈ aremove k l) : p ∈ l :=
  List.mem_of_mem_filter h

theorem mem_sinsert_iff {α : Type} [DecidableEq α] {x y : α} {l : List α} :
    x ∈ sinsert y l ↔ x = y ∨ x ∈ l := by
  unfold sinsert
  split
  · next h =>
      constructor
      · exact fun hx => Or.inr hx
      · rintro (rfl | hx)
        · exact h
        · exact hx
  · simp [List.mem_append, or_comm]

/-! ## Despawn structure -/

/-- The record transformation `despawn e` applies to surviving entries. -/
def scrubFun (e : Entity) (m : EntityMeta) : EntityMeta :=
  { m with agent_attributes := aremove e m.agent_attributes }

theorem scrubObserver_eq (e : Entity) (p : Entity × EntityMeta) :
    scrubObserver e p = (p.1, scrubFun e p.2) := rfl

theorem alookup_map_scrub (e x : Entity) (l : List (Entity × EntityMeta)) :
    alookup x (l.map (scrubObserver e)) = (alookup x l).map (scrubFun e) := by
  induction l with
  | nil => rfl
  | cons p r ih =>
      by_cases h : p.1 = x
      · simp [alookup, scrubObserver_eq, h]
      · simp [alookup, scrubObserver_eq, h, ih]

/-- What `despawn` leaves in the meta map at each key. -/
theorem despawn_meta_lookup (w : World) (e x : Entity) :
    alookup x (w.despawn e).meta =
      if x = e then none else (alookup x w.meta).map (scrubFun e) := by
  show alookup x ((aremove e w.meta).map (scrubObserver e)) = _
  rw [alookup_map_scrub]
  by_cases h : x = e
  · subst h
    rw [alookup_aremove_self]
    simp
  · rw [alookup_aremove_ne _ h]
    simp [h]

/-! ## Operation structure lemmas -/

theorem spawn_ok_spec {w : World} {e : Entity} {w' : World}
    (h : w.spawn = .ok (e, w')) :
    e = w.next_entity_id ∧ w.next_entity_id + 1 < entityIdLimit ∧
    w' = { w with next_entity_id := w.next_entity_id + 1,
                  meta := ainsert w.next_entity_id emptyMeta w.meta } := by
  simp only [World.spawn] at h
  split at h
  · next hlt =>
      injection h with h'
      obtain ⟨rfl, rfl⟩ := Prod.mk.inj h'.symm
      exact ⟨rfl, hlt, rfl⟩
  · simp at h

theorem recalculate_paths_ok_spec {w w1 : World}
    (h : w.recalculate_paths = .ok w1) :
    w1.next_entity_id = w.next_entity_id ∧ w1.meta = w.meta ∧
    w1.spaces = w.spaces ∧ w1.object_parents = w.object_parents ∧
    w1.kinds = w.kinds ∧ w1.portals = w.portals ∧
    w1.portal_objects = w.portal_objects ∧
    w1.space_distances = w.space_distances ∧
    w1.agent_locations = w.agent_locations ∧
    w1.agent_position = w.agent_position := by
  simp only [World.recalculate_paths] at h
  split at h
  · simp at h
  · next ps hfp =>
      split at h
      · simp at h
      · next m hfold =>
          injection h with h'
          subst h'
          exact ⟨rfl, rfl, rfl, rfl, rfl, rfl, rfl, rfl, rfl, rfl⟩

theorem recalculate_sd_ok_spec {w w' : World}
    (h : w.recalculate_space_distances = .ok w') :
    w'.next_entity_id = w.next_entity_id ∧ w'.meta = w.meta ∧
    w'.spaces = w.spaces ∧ w'.object_parents = w.object_parents ∧
    w'.kinds = w.kinds ∧ w'.portals = w.portals ∧
    w'.portal_objects = w.portal_objects ∧ w'.paths = w.paths ∧
    w'.agent_locations = w.agent_locations ∧
    w'.agent_position = w.agent_position ∧
    Topo.sdOf w.topo = some w'.space_distances := by
  simp only [World.recalculate_space_distances] at h
  split at h
  · simp at h
  · next ps hfp =>
      split at h
      · simp at h
      · next m hfold =>
          injection h with h'
          subst h'
          refine ⟨rfl, rfl, rfl, rfl, rfl, rfl, rfl, rfl, rfl, rfl, ?_⟩
          have hfp' : w.topo.findPaths = some ps := hfp
          have hfold' : sdFold w.topo ps [] = .ok m := hfold
          simp only [Topo.sdOf, hfp', hfold']

theorem recalculate_ok_spec {w w' : World} (h : w.recalculate = .ok w') :
    w'.next_entity_id = w.next_entity_id ∧ w'.meta = w.meta ∧
    w'.spaces = w.spaces ∧ w'.object_parents = w.object_parents ∧
    w'.kinds = w.kinds ∧ w'.portals = w.portals ∧
    w'.portal_objects = w.portal_objects ∧
    w'.agent_locations = w.agent_locations ∧
    w'.agent_position = w.agent_position ∧
    Topo.sdOf w.topo = some w'.space_distances := by
  simp only [World.recalculate] at h
  split at h
  · simp at h
  · next w1 hp =>
      obtain ⟨h1, h2, h3, h4, h5, h6, h7, h8, h9, h10⟩ := recalculate_paths_ok_spec hp
      obtain ⟨g1, g2, g3, g4, g5, g6, g7, g8, g9, g10, gsd⟩ := recalculate_sd_ok_spec h
      have htopo : w1.topo = w.topo := by
        simp only [World.topo, h3, h4, h7]
      refine ⟨g1.trans h1, g2.trans h2, g3.trans h3, g4.trans h4, g5.trans h5,
        g6.trans h6, g7.trans h7, g9.trans h9, g10.trans h10, ?_⟩
      rw [← htopo]
      exact gsd

/-- The topology a world carries after `recalculate` (same as before). -/
theorem recalculate_ok_topo {w w' : World} (h : w.recalculate = .ok w') :
    w'.topo = w.topo := by
  obtain ⟨_, _, h3, h4, _, _, h7, _, _, _⟩ := recalculate_ok_spec h
  simp only [World.topo, h3, h4, h7]

theorem create_space_ok_spec {w : World} {k : Value} {e : Entity} {w' : World}
    (h : w.create_space k = .ok (e, w')) :
    e = w.next_entity_id ∧
    w'.next_entity_id = w.next_entity_id + 1 ∧
    w'.meta = ainsert e emptyMeta w.meta ∧
    w'.spaces = sinsert e w.spaces ∧
    w'.object_parents = w.object_parents ∧
    w'.portal_objects = w.portal_objects ∧
    w'.kinds = ainsert e k w.kinds ∧
    w'.portals = w.portals ∧
    w'.agent_locations = w.agent_locations ∧
    w'.agent_position = w.agent_position ∧
    Topo.sdOf w'.topo = some w'.space_distances := by
  simp only [World.create_space] at h
  split at h
  · simp at h
  · next e1 w1 hsp =>
      obtain ⟨rfl, hlt, rfl⟩ := spawn_ok_spec hsp
      split at h
      · simp at h
      · next w2 hrec =>
          injection h with h'
          obtain ⟨rfl, rfl⟩ := Prod.mk.inj h'.symm
          obtain ⟨r1, r2, r3, r4, r5, r6, r7, r8, r9, rsd⟩ := recalculate_ok_spec hrec
          refine ⟨rfl, r1, r2, r3, r4, r7, r5, r6, r8, r9, ?_⟩
          rw [recalculate_ok_topo hrec]
          exact rsd

theorem create_object_ok_spec {w : World} {k : Value} {par : Entity}
    {e : Entity} {w' : World} (h : w.create_object k par = .ok (e, w')) :
    (w.is_space par || w.is_object par) = true ∧
    e = w.next_entity_id ∧
    w'.next_entity_id = w.next_entity_id + 1 ∧
    w'.meta = ainsert e emptyMeta w.meta ∧
    w'.spaces = w.spaces ∧
    w'.object_parents = ainsert e par w.object_parents ∧
    w'.portal_objects = w.portal_objects ∧
    w'.kinds = ainsert e k w.kinds ∧
    w'.portals = w.portals ∧
    w'.agent_locations = w.agent_locations ∧
    w'.agent_position = w.agent_position ∧
    Topo.sdOf w'.topo = some w'.space_distances := by
  simp only [World.create_object] at h
  split at h
  · next hpre =>
      split at h
      · simp at h
      · next e1 w1 hsp =>
          obtain ⟨rfl, hlt, rfl⟩ := spawn_ok_spec hsp
          split at h
          · simp at h
          · next w2 hrec =>
              injection h with h'
              obtain ⟨rfl, rfl⟩ := Prod.mk.inj h'.symm
              obtain ⟨r1, r2, r3, r4, r5, r6, r7, r8, r9, rsd⟩ := recalculate_ok_spec hrec
              refine ⟨hpre, rfl, r1, r2, r3, r4, r7, r5, r6, r8, r9, ?_⟩
              rw [recalculate_ok_topo hrec]
              exact rsd
  · simp at h

theorem create_agent_ok_spec {w : World} {loc : Entity}
    {e : Entity} {w' : World} (h : w.create_agent loc = .ok (e, w')) :
    w.is_area loc = true ∧
    e = w.next_entity_id ∧
    w'.next_entity_id = w.next_entity_id + 1 ∧
    w'.meta = ainsert e emptyMeta w.meta ∧
    w'.spaces = w.spaces ∧
    w'.object_parents = w.object_parents ∧
    w'.portal_objects = w.portal_objects ∧
    w'.space_distances = w.space_distances ∧
    w'.paths = w.paths ∧
    w'.agent_locations = ainsert e loc w.agent_locations := by
  simp only [World.create_agent] at h
  split at h
  · next hpre =>
      split at h
      · simp at h
      · next e1 w1 hsp =>
          obtain ⟨rfl, hlt, rfl⟩ := spawn_ok_spec hsp
          injection h with h'
          obtain ⟨rfl, rfl⟩ := Prod.mk.inj h'.symm
          exact ⟨hpre, rfl, rfl, rfl, rfl, rfl, rfl, rfl, rfl, rfl⟩
  · simp at h

theorem create_portal_ok_spec {w : World} {k : Value} {a b : Entity}
    {e : Entity} {w' : World} (h : w.create_portal k (a, b) = .ok (e, w')) :
    w.is_space a = true ∧ w.is_space b = true ∧
    e = w.next_entity_id ∧
    w'.next_entity_id = w.next_entity_id + 3 ∧
    w'.meta = ainsert (e + 2) emptyMeta
      (ainsert (e + 1) emptyMeta (ainsert e emptyMeta w.meta)) ∧
    w'.spaces = w.spaces ∧
    w'.object_parents = ainsert (e + 2) b (ainsert (e + 1) a w.object_parents) ∧
    w'.portal_objects = ainsert (e + 2) (PortalTarget.mk e (e + 1))
      (ainsert (e + 1) (PortalTarget.mk e (e + 2)) w.portal_objects) ∧
    w'.portals = sinsert e w.portals ∧
    w'.agent_locations = w.agent_locations ∧
    w'.agent_position = w.agent_position ∧
    Topo.sdOf w'.topo = some w'.space_distances := by
  simp only [World.create_portal] at h
  split at h
  case isFalse => simp at h
  case isTrue ha =>
  split at h
  case isFalse => simp at h
  case isTrue hb =>
  split at h
  case h_1 => simp at h
  case h_2 e1 w1 hsp =>
  obtain ⟨rfl, hlt, rfl⟩ := spawn_ok_spec hsp
  split at h
  case h_1 => simp at h
  case h_2 oa w3 hco1 =>
  split at h
  case h_1 => simp at h
  case h_2 ob w4 hco2 =>
  split at h
  case h_1 => simp at h
  case h_2 w6 hrec =>
  injection h with h'
  obtain ⟨rfl, rfl⟩ := Prod.mk.inj h'.symm
  obtain ⟨_, hoa0, hn3, hm3, hs3, hop3, hpo3, _, hpr3, hal3, hap3, _⟩ :=
    create_object_ok_spec hco1
  obtain ⟨_, hob0, hn4, hm4, hs4, hop4, hpo4, _, hpr4, hal4, hap4, _⟩ :=
    create_object_ok_spec hco2
  have hoa : oa = w.next_entity_id + 1 := hoa0
  have hob : ob = w.next_entity_id + 2 := by
    rw [hob0, hn3]
  subst hoa
  subst hob
  obtain ⟨r1, r2, r3, r4, r5, r6, r7, r8, r9, rsd⟩ := recalculate_ok_spec hrec
  refine ⟨ha, hb, rfl, ?_, ?_, ?_, ?_, ?_, ?_, ?_, ?_, ?_⟩
  · rw [r1, hn4, hn3]
  · rw [r2, hm4, hm3]
  · rw [r3, hs4, hs3]
  · rw [r4, hop4, hop3]
  · rw [r7, hpo4, hpo3]
  · rw [r6, hpr4, hpr3]
  · rw [r8, hal4, hal3]
  · rw [r9, hap4, hap3]
  · rw [recalculate_ok_topo hrec]
    exact rsd

/-! ## The reachable-state invariant

`spaces_lt`/`meta_lt`: every registered space / meta key was allocated by
`spawn`, so it lies below the counter.  `sync`: the space-distance cache is
exactly the recomputation of the current topology (§3: caches are a pure
function of the topology). -/

structure WF (w : World) : Prop where
  spaces_lt : ∀ s ∈ w.spaces, s < w.next_entity_id
  meta_lt : ∀ p ∈ w.meta, p.1 < w.next_entity_id
  sync : Topo.sdOf w.topo = some w.space_distances

theorem wf_frame {w w' : World} (hwf : WF w)
    (hn : w'.next_entity_id = w.next_entity_id)
    (hs : w'.spaces = w.spaces)
    (hop : w'.object_parents = w.object_parents)
    (hpo : w'.portal_objects = w.portal_objects)
    (hd : w'.space_distances = w.space_distances)
    (hmk : ∀ p ∈ w'.meta, ∃ q ∈ w.meta, p.1 = q.1) : WF w' := by
  constructor
  · intro s hsm
    rw [hn]
    exact hwf.spaces_lt s (hs ▸ hsm)
  · intro p hp
    obtain ⟨q, hq, he⟩ := hmk p hp
    rw [hn, he]
    exact hwf.meta_lt q hq
  · have ht : w'.topo = w.topo := by
      simp only [World.topo, hs, hop, hpo]
    rw [ht, hd]
    exact hwf.sync

theorem wf_setMeta {w : World} {e : Entity} {m : EntityMeta} (m' : EntityMeta)
    (hwf : WF w) (hm : alookup e w.meta = some m) : WF (setMeta w e m') := by
  refine @wf_frame w (setMeta w e m') hwf rfl rfl rfl rfl rfl ?_
  intro p hp
  rcases mem_ainsert_elim hp with rfl | hp'
  · exact ⟨(e, m), mem_of_alookup_eq_some hm, rfl⟩
  · exact ⟨p, hp', rfl⟩

theorem wf_create_space {w : World} {k : Value} {e : Entity} {w' : World}
    (hwf : WF w) (h : w.create_space k = .ok (e, w')) : WF w' := by
  obtain ⟨rfl, hn, hm, hs, _, _, _, _, _, _, hsd⟩ := create_space_ok_spec h
  constructor
  · intro s hsm
    rw [hn]
    rcases mem_sinsert_iff.1 (hs ▸ hsm) with rfl | hold
    · exact Nat.lt_succ_self _
    · exact Nat.lt_succ_of_lt (hwf.spaces_lt s hold)
  · intro p hp
    rw [hn]
    rcases mem_ainsert_elim (hm ▸ hp) with rfl | hold
    · exact Nat.lt_succ_self _
    · exact Nat.lt_succ_of_lt (hwf.meta_lt p hold)
  · exact hsd

theorem wf_create_object {w : World} {k : Value} {par e : Entity} {w' : World}
    (hwf : WF w) (h : w.create_object k par = .ok (e, w')) : WF w' := by
  obtain ⟨_, rfl, hn, hm, hs, _, _, _, _, _, _, hsd⟩ := create_object_ok_spec h
  constructor
  · intro s hsm
    rw [hn]
    exact Nat.lt_succ_of_lt (hwf.spaces_lt s (hs ▸ hsm))
  · intro p hp
    rw [hn]
    rcases mem_ainsert_elim (hm ▸ hp) with rfl | hold
    · exact Nat.lt_succ_self _
    · exact Nat.lt_succ_of_lt (hwf.meta_lt p hold)
  · exact hsd

theorem wf_create_portal {w : World} {k : Value} {a b e : Entity} {w' : World}
    (hwf : WF w) (h : w.create_portal k (a, b) = .ok (e, w')) : WF w' := by
  obtain ⟨_, _, rfl, hn, hm, hs, _, _, _, _, _, hsd⟩ := create_portal_ok_spec h
  constructor
  · intro s hsm
    rw [hn]
    exact Nat.lt_of_lt_of_le (hwf.spaces_lt s (hs ▸ hsm)) (Nat.le_add_right _ _)
  · intro p hp
    rw [hn]
    rcases mem_ainsert_elim (hm ▸ hp) with rfl | hold
    · exact Nat.lt_succ_self _
    · rcases mem_ainsert_elim hold with rfl | hold'
      · exact Nat.add_lt_add_left (by decide) _
      · rcases mem_ainsert_elim hold' with rfl | hold''
        · exact Nat.lt_add_of_pos_right (show (0 : Nat) < 3 by decide)
        · exact Nat.lt_of_lt_of_le (hwf.meta_lt p hold'')
            (Nat.le_add_right _ _)
  · exact hsd

theorem wf_create_agent {w : World} {loc e : Entity} {w' : World}
    (hwf : WF w) (h : w.create_agent loc = .ok (e, w')) : WF w' := by
  obtain ⟨_, rfl, hn, hm, hs, hop, hpo, hd, _, _⟩ := create_agent_ok_spec h
  constructor
  · intro s hsm
    rw [hn]
    exact Nat.lt_succ_of_lt (hwf.spaces_lt s (hs ▸ hsm))
  · intro p hp
    rw [hn]
    rcases mem_ainsert_elim (hm ▸ hp) with rfl | hold
    · exact Nat.lt_succ_self _
    · exact Nat.lt_succ_of_lt (hwf.meta_lt p hold)
  · have ht : w'.topo = w.topo := by
      simp only [World.topo, hs, hop, hpo]
    rw [ht, hd]
    exact hwf.sync

/-- Every world reachable through the public mutation API satisfies the
invariant. -/
theorem reachable_wf {w : World} (h : Reachable w) : WF w := by
  induction h with
  | init =>
      refine ⟨?_, ?_, ?_⟩
      · intro s hs
        simp [World.empty] at hs
      · intro p hp
        simp [World.empty] at hp
      · rfl
  | create_space _ hstep ih => exact wf_create_space ih hstep
  | create_object _ hstep ih => exact wf_create_object ih hstep
  | create_portal _ hstep ih =>
      rename_i w0 k s e w' _
      obtain ⟨s1, s2⟩ := s
      exact wf_create_portal ih hstep
  | create_agent _ hstep ih => exact wf_create_agent ih hstep
  | despawn e _ ih =>
      rename_i w0 _
      refine @wf_frame w0 (w0.despawn e) ih rfl rfl rfl rfl rfl ?_
      intro p hp
      obtain ⟨q, hq, rfl⟩ := List.mem_map.1 hp
      exact ⟨q, mem_aremove_elim hq, rfl⟩
  | set_identifier _ hstep ih =>
      simp only [World.set_identifier] at hstep
      split at hstep
      · next m hm =>
          injection hstep with h'
          subst h'
          exact wf_setMeta _ ih hm
      · simp at hstep
  | set_global_attribute_value _ hstep ih =>
      simp only [World.set_global_attribute_value] at hstep
      split at hstep
      · next m hm =>
          injection hstep with h'
          subst h'
          exact wf_setMeta _ ih hm
      · simp at hstep
  | clear_global_attribute_value _ hstep ih =>
      simp only [World.clear_global_attribute_value] at hstep
      split at hstep
      · next m hm =>
          injection hstep with h'
          obtain ⟨-, rfl⟩ := Prod.mk.inj h'
          exact wf_setMeta _ ih hm
      · simp at hstep
  | set_global_tag _ hstep ih =>
      simp only [World.set_global_tag] at hstep
      split at hstep
      · next m hm =>
          injection hstep with h'
          subst h'
          exact wf_setMeta _ ih hm
      · simp at hstep
  | clear_global_tag _ hstep ih =>
      simp only [World.clear_global_tag] at hstep
      split at hstep
      · next m hm =>
          injection hstep with h'
          subst h'
          exact wf_setMeta _ ih hm
      · simp at hstep
  | set_agent_attribute_value _ hstep ih =>
      simp only [World.set_agent_attribute_value] at hstep
      split at hstep
      · next m hm =>
          injection hstep with h'
          subst h'
          exact wf_setMeta _ ih hm
      · simp at hstep
  | clear_agent_attribute_value _ hstep ih =>
      simp only [World.clear_agent_attribute_value] at hstep
      split at hstep
      · next m hm =>
          split at hstep
          · next am ham =>
              injection hstep with h'
              obtain ⟨-, rfl⟩ := Prod.mk.inj h'
              exact wf_setMeta _ ih hm
          · next ham =>
              injection hstep with h'
              obtain ⟨-, rfl⟩ := Prod.mk.inj h'
              exact ih
      · simp at hstep
  | set_agent_tag _ hstep ih =>
      simp only [World.set_agent_tag] at hstep
      split at hstep
      · next m hm =>
          injection hstep with h'
          subst h'
          exact wf_setMeta _ ih hm
      · simp at hstep
  | clear_agent_tag _ hstep ih =>
      simp only [World.clear_agent_tag] at hstep
      split at hstep
      · next m hm =>
          split at hstep
          · next ts hts =>
              injection hstep with h'
              subst h'
              exact wf_setMeta _ ih hm
          · next hts =>
              injection hstep with h'
              subst h'
              exact ih
      · simp at hstep
  | set_agent_location _ hstep ih =>
      simp only [World.set_agent_location] at hstep
      split at hstep
      · injection hstep with h'
        subst h'
        refine @wf_frame _ _ ih rfl rfl rfl rfl rfl ?_
        exact fun p hp => ⟨p, hp, rfl⟩
      · simp at hstep
  | set_agent_position _ hstep ih =>
      simp only [World.set_agent_position] at hstep
      split at hstep
      · injection hstep with h'
        subst h'
        refine @wf_frame _ _ ih rfl rfl rfl rfl rfl ?_
        exact fun p hp => ⟨p, hp, rfl⟩
      · simp at hstep
  | clear_agent_position _ hstep ih =>
      simp only [World.clear_agent_position] at hstep
      split at hstep
      · injection hstep with h'
        subst h'
        refine @wf_frame _ _ ih rfl rfl rfl rfl rfl ?_
        exact fun p hp => ⟨p, hp, rfl⟩
      · simp at hstep

/-! ## Characterising the output of `find_paths`

`Reaches t p x` holds when the recorded path `x` arises from the queued path
`p` by a (possibly empty) chain of worklist extensions; the loop's output is
exactly the set of paths reached from its initial buffer. -/

inductive Reaches (t : Topo) : List Entity → List Entity → Prop where
  | here {p : List Entity} : 1 < p.length → Reaches t p p
  | step {p q r : List Entity} {exts : List (List Entity)} :
      pushesOf t p = some exts → q ∈ exts → Reaches t q r → Reaches t p r

theorem reaches_unfold {t : Topo} {p : List Entity}
    {exts : List (List Entity)} (hp : pushesOf t p = some exts)
    (x : List Entity) :
    Reaches t p x ↔ (1 < p.length ∧ x = p) ∨ ∃ q ∈ exts, Reaches t q x := by
  constructor
  · intro h
    cases h with
    | here h1 => exact Or.inl ⟨h1, rfl⟩
    | step hp' hq hr =>
        rw [hp] at hp'
        injection hp' with he
        exact Or.inr ⟨_, he ▸ hq, hr⟩
  · rintro (⟨h1, rfl⟩ | ⟨q, hq, hr⟩)
    · exact .here h1
    · exact .step hp hq hr

theorem findPathsLoop_mem {t : Topo} :
    ∀ (fuel : Nat) (buffer acc out : List (List Entity)),
      findPathsLoop t fuel buffer acc = some out →
      ∀ x, x ∈ out ↔ x ∈ acc ∨ ∃ p ∈ buffer, Reaches t p x := by
  intro fuel
  induction fuel with
  | zero => intro buffer acc out h; simp [findPathsLoop] at h
  | succ n ih =>
      intro buffer acc out h x
      cases buffer with
      | nil =>
          simp only [findPathsLoop] at h
          injection h with h'
          subst h'
          simp
      | cons p rest =>
          simp only [findPathsLoop] at h
          split at h
          · simp at h
          · next exts hp =>
              have hiter := ih (rest ++ exts) _ out h x
              rw [hiter]
              have hstepiff := reaches_unfold hp x
              constructor
              · rintro (hacc | ⟨q, hq, hr⟩)
                · by_cases hlen : 1 < p.length
                  · simp only [hlen, if_pos] at hacc
                    rcases List.mem_append.1 hacc with h1 | h1
                    · exact Or.inl h1
                    · simp only [List.mem_singleton] at h1
                      refine Or.inr ⟨p, List.mem_cons_self _ _, ?_⟩
                      rw [h1]
                      exact Reaches.here hlen
                  · simp only [hlen, if_neg, not_false_iff] at hacc
                    exact Or.inl hacc
                · rcases List.mem_append.1 hq with h1 | h1
                  · exact Or.inr ⟨q, List.mem_cons_of_mem _ h1, hr⟩
                  · exact Or.inr ⟨p, List.mem_cons_self _ _,
                      hstepiff.2 (Or.inr ⟨q, h1, hr⟩)⟩
              · rintro (hacc | ⟨q, hq, hr⟩)
                · left
                  split
                  · exact List.mem_append.2 (Or.inl hacc)
                  · exact hacc
                · rcases List.mem_cons.1 hq with rfl | hq'
                  · rcases hstepiff.1 hr with ⟨h1, rfl⟩ | ⟨q', hq', hr'⟩
                    · left
                      simp only [h1, if_pos]
                      exact List.mem_append.2 (Or.inr (by simp))
                    · exact Or.inr ⟨q', List.mem_append.2 (Or.inr hq'), hr'⟩
                  · exact Or.inr ⟨q, List.mem_append.2 (Or.inl hq'), hr⟩

/-- Membership in the enumerated path list: exactly the paths reached from
some single-area seed. -/
theorem findPaths_mem {t : Topo} {ps : List (List Entity)}
    (h : t.findPaths = some ps) (x : List Entity) :
    x ∈ ps ↔ ∃ a ∈ t.areas, Reaches t [a] x := by
  rw [findPathsLoop_mem _ _ _ _ h x]
  simp only [List.mem_map, false_or]
  constructor
  · rintro (h' | ⟨p, ⟨a, ha, rfl⟩, hr⟩)
    · simp at h'
    · exact ⟨a, ha, hr⟩
  · rintro ⟨a, ha, hr⟩
    exact Or.inr ⟨[a], ⟨a, ha, rfl⟩, hr⟩

/-! ## Properties of the distance fold -/

theorem sdUpdateMin_lookup_self (key : Entity × Entity) (n : Nat) (m : SDMap) :
    alookup key (sdUpdateMin key n m) =
      some (match alookup key m with
            | some cur => min cur n
            | none => n) := by
  unfold sdUpdateMin
  split
  · next cur hcur => rw [alookup_ainsert_self]
  · next hnone => rw [alookup_ainsert_self]

theorem sdUpdateMin_lookup_ne {key k' : Entity × Entity} (n : Nat) (m : SDMap)
    (h : k' ≠ key) :
    alookup k' (sdUpdateMin key n m) = alookup k' m := by
  unfold sdUpdateMin
  split
  · exact alookup_ainsert_ne _ _ h
  · exact alookup_ainsert_ne _ _ h

theorem sdUpdateMin_ge2 {key : Entity × Entity} {n : Nat} {m : SDMap}
    (hm : ∀ p ∈ m, 2 ≤ p.2) (hn : 2 ≤ n) :
    ∀ p ∈ sdUpdateMin key n m, 2 ≤ p.2 := by
  intro p hp
  unfold sdUpdateMin at hp
  split at hp
  · next cur hcur =>
      rcases mem_ainsert_elim hp with rfl | hold
      · have h2 := hm _ (mem_of_alookup_eq_some hcur)
        exact le_min h2 hn
      · exact hm p hold
  · rcases mem_ainsert_elim hp with rfl | hold
    · exact hn
    · exact hm p hold

theorem sdStep_ge2 {t : Topo} {m m' : SDMap} {path : List Entity}
    (h : sdStep t m path = .ok m') (hm : ∀ p ∈ m, 2 ≤ p.2) :
    ∀ p ∈ m', 2 ≤ p.2 := by
  unfold sdStep at h
  split at h
  · simp at h
  · split at h
    · next first last hh hl =>
        split at h
        · injection h with h'
          subst h'
          exact hm
        · next hguard =>
            injection h with h'
            subst h'
            exact sdUpdateMin_ge2 hm (by omega)
    · simp at h

theorem sdFold_ge2 {t : Topo} {ps : List (List Entity)} :
    ∀ {m m' : SDMap}, sdFold t ps m = .ok m' → (∀ p ∈ m, 2 ≤ p.2) →
      ∀ p ∈ m', 2 ≤ p.2 := by
  induction ps with
  | nil =>
      intro m m' h hm
      injection h with h'
      subst h'
      exact hm
  | cons path rest ih =>
      intro m m' h hm
      simp only [sdFold] at h
      split at h
      · simp at h
      · next m1 hstep => exact ih h (sdStep_ge2 hstep hm)

theorem sdStep_keeps_two {t : Topo} {m m' : SDMap} {path : List Entity}
    {key : Entity × Entity} (h : sdStep t m path = .ok m')
    (h2 : alookup key m = some 2) : alookup key m' = some 2 := by
  unfold sdStep at h
  split at h
  · simp at h
  · split at h
    · next first last hh hl =>
        split at h
        · injection h with h'
          subst h'
          exact h2
        · next hguard =>
            injection h with h'
            subst h'
            by_cases hk : key = pairOf first last
            · subst hk
              simp only [sdUpdateMin_lookup_self, h2]
              congr 1
              exact Nat.min_eq_left (by omega)
            · rw [sdUpdateMin_lookup_ne _ _ hk]
              exact h2
    · simp at h

theorem sdFold_keeps_two {t : Topo} {ps : List (List Entity)} :
    ∀ {m m' : SDMap} {key : Entity × Entity}, sdFold t ps m = .ok m' →
      alookup key m = some 2 → alookup key m' = some 2 := by
  induction ps with
  | nil =>
      intro m m' key h h2
      injection h with h'
      subst h'
      exact h2
  | cons path rest ih =>
      intro m m' key h h2
      simp only [sdFold] at h
      split at h
      · simp at h
      · next m1 hstep => exact ih h (sdStep_keeps_two hstep h2)

theorem sdFold_append {t : Topo} (l1 l2 : List (List Entity)) (m : SDMap) :
    sdFold t (l1 ++ l2) m =
      match sdFold t l1 m with
      | .error m' => .error m'
      | .ok m' => sdFold t l2 m' := by
  induction l1 generalizing m with
  | nil => simp [sdFold]
  | cons path rest ih =>
      simp only [List.cons_append, sdFold]
      split
      · rfl
      · exact ih _

/-! ## Object-space, areas and spaces_by_distance helpers -/

theorem objectSpaceGo_isSpace {t : Topo} {e : Entity} (fuel : Nat)
    (h : t.is_space e = true) : objectSpaceGo t (fuel + 1) e = some e := by
  simp [objectSpaceGo, h]

theorem objectSpaceGo_parent {t : Topo} {e par : Entity} (fuel : Nat)
    (h : t.is_space e = false) (hp : t.object_parent e = some par) :
    objectSpaceGo t (fuel + 1) e = objectSpaceGo t fuel par := by
  simp [objectSpaceGo, h, hp]

/-- A one-step parent chain ending in a space resolves immediately. -/
theorem object_space_child {t : Topo} {o s : Entity}
    (ho : t.is_space o = false) (hp : alookup o t.object_parents = some s)
    (hs : t.is_space s = true) : t.object_space o = some s := by
  unfold Topo.object_space
  cases hlen : t.object_parents.length with
  | zero =>
      have hmem := mem_of_alookup_eq_some hp
      have := List.ne_nil_of_mem hmem
      rw [List.length_eq_zero] at hlen
      exact absurd hlen this
  | succ n =>
      rw [objectSpaceGo_parent (n + 1) ho hp]
      exact objectSpaceGo_isSpace n hs

theorem mem_child_objects {t : Topo} {x parent : Entity} :
    x ∈ t.child_objects parent ↔ (x, parent) ∈ t.object_parents := by
  unfold Topo.child_objects
  rw [List.mem_filterMap]
  constructor
  · rintro ⟨p, hp, he⟩
    split at he
    · next hpar =>
        injection he with he'
        obtain ⟨a, b⟩ := p
        subst hpar
        subst he'
        exact hp
    · simp at he
  · intro hmem
    exact ⟨(x, parent), hmem, by simp⟩

theorem mem_areas {t : Topo} {a : Entity} :
    a ∈ t.areas ↔ ∃ s ∈ t.spaces, (a, s) ∈ t.object_parents := by
  unfold Topo.areas
  rw [List.mem_flatMap]
  constructor
  · rintro ⟨s, hs, ha⟩
    exact ⟨s, hs, mem_child_objects.1 ha⟩
  · rintro ⟨s, hs, ha⟩
    exact ⟨s, hs, mem_child_objects.2 ha⟩

theorem mem_insertByDist {x z : Entity × Nat} {l : List (Entity × Nat)} :
    z ∈ insertByDist x l ↔ z = x ∨ z ∈ l := by
  induction l with
  | nil => simp [insertByDist]
  | cons y r ih =>
      unfold insertByDist
      split
      · simp
      · rw [List.mem_cons, ih, List.mem_cons]
        tauto

theorem mem_sortByDist {z : Entity × Nat} {l : List (Entity × Nat)} :
    z ∈ sortByDist l ↔ z ∈ l := by
  induction l with
  | nil => simp [sortByDist]
  | cons y r ih =>
      unfold sortByDist
      rw [mem_insertByDist, ih, List.mem_cons]

theorem mem_spaces_by_distance {w : World} {src b : Entity} :
    b ∈ w.spaces_by_distance src ↔
      b ∈ w.spaces ∧ ∃ d, alookup (pairOf src b) w.space_distances = some d := by
  unfold World.spaces_by_distance
  rw [List.mem_map]
  constructor
  · rintro ⟨⟨sp, d⟩, hmem, rfl⟩
    rw [mem_sortByDist, List.mem_filterMap] at hmem
    obtain ⟨sp', hsp', he⟩ := hmem
    cases hl : alookup (pairOf src sp') w.space_distances with
    | none => rw [hl] at he; simp at he
    | some d' =>
        rw [hl] at he
        simp only [Option.map_some', Option.some.injEq, Prod.mk.injEq] at he
        obtain ⟨h1, h2⟩ := he
        subst h1
        exact ⟨hsp', d', hl⟩
  · rintro ⟨hb, d, hd⟩
    refine ⟨(b, d), ?_, rfl⟩
    rw [mem_sortByDist, List.mem_filterMap]
    exact ⟨b, hb, by rw [hd]; rfl⟩

theorem pairOf_comm (a b : Entity) : pairOf a b = pairOf b a := by
  by_cases h1 : a ≤ b <;> by_cases h2 : b ≤ a
  · have h3 : a = b := Nat.le_antisymm h1 h2
    subst h3
    rfl
  · simp [pairOf, h1, h2]
  · simp [pairOf, h1, h2]
  · exact absurd (Nat.le_of_not_le h1) h2

/-! ## Distance entries produced by a two-area portal path -/

theorem sortEntities_pair (A B : Entity) :
    sortEntities [A, B] = if A ≤ B then [A, B] else [B, A] := by
  by_cases h : A ≤ B <;> simp [sortEntities, insertSorted, h]

theorem dedupConsec_pair {A B : Entity} (h : A ≠ B) :
    (dedupConsec (sortEntities [A, B])).length = 2 := by
  rw [sortEntities_pair]
  by_cases hle : A ≤ B
  · simp [hle, dedupConsec, h]
  · have hba : B ≠ A := fun e => h (Eq.symm e)
    simp [hle, dedupConsec, hba]

theorem sdStep_pair {t : Topo} {m : SDMap} {x y A B : Entity}
    (hx : t.object_space x = some A) (hy : t.object_space y = some B)
    (hAB : A ≠ B) :
    sdStep t m [x, y] = .ok (sdUpdateMin (pairOf A B) 2 m) := by
  have hsp : spacesOfPath t [x, y] = some [A, B] := by
    simp [spacesOfPath, hx, hy]
  have hd := dedupConsec_pair hAB
  simp [sdStep, hsp, hd]

/-- Folding a path list containing a two-area path whose end areas lie in
distinct spaces `A ≠ B` caches distance exactly `2` for `{A, B}`. -/
theorem sdFold_two_of_mem {t : Topo} {ps : List (List Entity)} {m' : SDMap}
    {x y A B : Entity} (hfold : sdFold t ps [] = .ok m')
    (hmem : [x, y] ∈ ps) (hx : t.object_space x = some A)
    (hy : t.object_space y = some B) (hAB : A ≠ B) :
    alookup (pairOf A B) m' = some 2 := by
  obtain ⟨l1, l2, rfl⟩ := List.append_of_mem hmem
  rw [sdFold_append] at hfold
  split at hfold
  · simp at hfold
  · next m1 hl1 =>
      simp only [sdFold] at hfold
      rw [sdStep_pair hx hy hAB] at hfold
      have hge : ∀ p ∈ m1, 2 ≤ p.2 := sdFold_ge2 hl1 (by simp)
      have h2 : alookup (pairOf A B) (sdUpdateMin (pairOf A B) 2 m1) = some 2 := by
        rw [sdUpdateMin_lookup_self]
        cases hc : alookup (pairOf A B) m1 with
        | none => simp
        | some cur =>
            have := hge _ (mem_of_alookup_eq_some hc)
            simp only [Option.some.injEq]
            exact Nat.min_eq_right this
      exact sdFold_keeps_two hfold h2

/-! ## Where distance entries come from (soundness of the fold) -/

/-- The path `path` accounts for the distance key `key`: its areas all map
to spaces and the unordered pair of its first and last space is `key`. -/
def connectsPair (t : Topo) (path : List Entity) (key : Entity × Entity) : Prop :=
  ∃ ss first last, spacesOfPath t path = some ss ∧ ss.head? = some first ∧
    ss.getLast? = some last ∧ pairOf first last = key

theorem sdStep_key_source {t : Topo} {m m' : SDMap} {path : List Entity}
    {key : Entity × Entity} (h : sdStep t m path = .ok m')
    (hk : (alookup key m').isSome) :
    (alookup key m).isSome ∨ connectsPair t path key := by
  unfold sdStep at h
  split at h
  · simp at h
  · next ss hss =>
      split at h
      · next first last hh hl =>
          split at h
          · injection h with h'
            subst h'
            exact Or.inl hk
          · injection h with h'
            subst h'
            by_cases hkey : key = pairOf first last
            · exact Or.inr ⟨ss, first, last, hss, hh, hl, hkey.symm⟩
            · rw [sdUpdateMin_lookup_ne _ _ hkey] at hk
              exact Or.inl hk
      · simp at h

theorem sdFold_key_source {t : Topo} {ps : List (List Entity)} :
    ∀ {m m' : SDMap} {key : Entity × Entity}, sdFold t ps m = .ok m' →
      (alookup key m').isSome →
      (alookup key m).isSome ∨ ∃ p ∈ ps, connectsPair t p key := by
  induction ps with
  | nil =>
      intro m m' key h hk
      injection h with h'
      subst h'
      exact Or.inl hk
  | cons path rest ih =>
      intro m m' key h hk
      simp only [sdFold] at h
      split at h
      · simp at h
      · next m1 hstep =>
          rcases ih h hk with h1 | ⟨p, hp, hc⟩
          · rcases sdStep_key_source hstep h1 with h2 | hc
            · exact Or.inl h2
            · exact Or.inr ⟨path, List.mem_cons_self _ _, hc⟩
          · exact Or.inr ⟨p, List.mem_cons_of_mem _ hp, hc⟩

/-! ## Claim C1 -/

/-- C1: for every reachable world state and every two distinct existing
Spaces `A` and `B`, after `create_portal(kind, (A, B))` returns, the
space-distance cache maps the unordered pair `{A, B}` to exactly `2`, so
`spaces_by_distance(A)` yields `B` and `spaces_by_distance(B)` yields `A`. -/
theorem claim1_portal_distance_two {w : World} {k : Value} {A B p : Entity}
    {w' : World} (hr : Reachable w) (hA : w.is_space A = true)
    (hB : w.is_space B = true) (hAB : A ≠ B)
    (hok : w.create_portal k (A, B) = .ok (p, w')) :
    alookup (pairOf A B) w'.space_distances = some 2 ∧
    B ∈ w'.spaces_by_distance A ∧ A ∈ w'.spaces_by_distance B := by
  have hwf := reachable_wf hr
  obtain ⟨ha, hb, rfl, hn, hm, hs, hop, hpo, hpr, hal, hap, hsd⟩ :=
    create_portal_ok_spec hok
  have hAmem : A ∈ w.spaces := of_decide_eq_true hA
  have hBmem : B ∈ w.spaces := of_decide_eq_true hB
  -- the two fresh portal objects are not spaces
  have hfresh1 : w.next_entity_id + 1 ∉ w.spaces := by
    intro hmem
    exact Nat.lt_irrefl _
      (Nat.lt_of_le_of_lt (Nat.le_succ _) (hwf.spaces_lt _ hmem))
  have hfresh2 : w.next_entity_id + 2 ∉ w.spaces := by
    intro hmem
    exact Nat.lt_irrefl _
      (Nat.lt_of_le_of_lt (Nat.le_add_right _ 2) (hwf.spaces_lt _ hmem))
  have hoaNotSpace : w'.topo.is_space (w.next_entity_id + 1) = false := by
    apply decide_eq_false
    show w.next_entity_id + 1 ∉ w'.spaces
    rw [hs]
    exact hfresh1
  have hobNotSpace : w'.topo.is_space (w.next_entity_id + 2) = false := by
    apply decide_eq_false
    show w.next_entity_id + 2 ∉ w'.spaces
    rw [hs]
    exact hfresh2
  have hASpace : w'.topo.is_space A = true := by
    apply decide_eq_true
    show A ∈ w'.spaces
    rw [hs]
    exact hAmem
  have hBSpace : w'.topo.is_space B = true := by
    apply decide_eq_true
    show B ∈ w'.spaces
    rw [hs]
    exact hBmem
  have hoaPar : alookup (w.next_entity_id + 1) w'.topo.object_parents = some A := by
    show alookup (w.next_entity_id + 1) w'.object_parents = some A
    rw [hop, alookup_ainsert_ne _ _
      (show w.next_entity_id + 1 ≠ w.next_entity_id + 2 by omega),
      alookup_ainsert_self]
  have hobPar : alookup (w.next_entity_id + 2) w'.topo.object_parents = some B := by
    show alookup (w.next_entity_id + 2) w'.object_parents = some B
    rw [hop, alookup_ainsert_self]
  have hoaSpace : w'.topo.object_space (w.next_entity_id + 1) = some A :=
    object_space_child hoaNotSpace hoaPar hASpace
  have hobSpace : w'.topo.object_space (w.next_entity_id + 2) = some B :=
    object_space_child hobNotSpace hobPar hBSpace
  have hoaTarget : w'.topo.object_portal_target (w.next_entity_id + 1) =
      some (w.next_entity_id + 2) := by
    unfold Topo.object_portal_target
    show ((alookup (w.next_entity_id + 1) w'.portal_objects).map _) = _
    rw [hpo, alookup_ainsert_ne _ _
      (show w.next_entity_id + 1 ≠ w.next_entity_id + 2 by omega),
      alookup_ainsert_self]
    rfl
  have hoaArea : (w.next_entity_id + 1) ∈ w'.topo.areas := by
    rw [mem_areas]
    refine ⟨A, ?_, ?_⟩
    · show A ∈ w'.spaces
      rw [hs]
      exact hAmem
    · show _ ∈ w'.object_parents
      rw [hop]
      exact mem_ainsert_of_ne _ (mem_ainsert_self _ _ _)
        (show w.next_entity_id + 1 ≠ w.next_entity_id + 2 by omega)
  -- unpack the recomputed cache
  unfold Topo.sdOf at hsd
  split at hsd
  · simp at hsd
  · next ps hfp =>
      split at hsd
      · simp at hsd
      · next m hfold =>
          injection hsd with hsd'
          subst hsd'
          -- the portal path [oa, ob] is enumerated
          have hne : (w.next_entity_id + 2) ∉ [w.next_entity_id + 1] := by
            intro hmem
            simp only [List.mem_singleton] at hmem
            exact (by omega :
              ¬ ((w.next_entity_id : Nat) + 2 = w.next_entity_id + 1)) hmem
          have hlast : ([w.next_entity_id + 1] : List Entity).getLast? =
              some (w.next_entity_id + 1) := rfl
          have hpush : pushesOf w'.topo [w.next_entity_id + 1] =
              some ([[w.next_entity_id + 1, w.next_entity_id + 2]] ++
                (w'.topo.child_objects A).filterMap
                  (fun l => if l ∈ [w.next_entity_id + 1] then none
                            else some ([w.next_entity_id + 1] ++ [l]))) := by
            unfold pushesOf
            simp only [hlast, hoaSpace, hoaTarget, hne, if_neg, not_false_iff]
            rfl
          have hreach : Reaches w'.topo [w.next_entity_id + 1]
              [w.next_entity_id + 1, w.next_entity_id + 2] := by
            refine Reaches.step hpush ?_ (Reaches.here (by simp))
            exact List.mem_append.2 (Or.inl (by simp))
          have hmem2 : [w.next_entity_id + 1, w.next_entity_id + 2] ∈ ps :=
            (findPaths_mem hfp _).2 ⟨_, hoaArea, hreach⟩
          have hkey : alookup (pairOf A B) w'.space_distances = some 2 :=
            sdFold_two_of_mem hfold hmem2 hoaSpace hobSpace hAB
          refine ⟨hkey, ?_, ?_⟩
          · rw [mem_spaces_by_distance]
            exact ⟨by rw [hs]; exact hBmem, 2, hkey⟩
          · rw [mem_spaces_by_distance]
            refine ⟨by rw [hs]; exact hAmem, 2, ?_⟩
            rw [pairOf_comm]
            exact hkey

/-! ## Concrete reachable worlds used by witnesses and counterexamples -/

def vK : Value := Value.sym "k"

/-- Projects the world out of a mutation result (used only to name the
successor states of concrete API call chains). -/
def okWorld (r : Except World (Entity × World)) : World :=
  match r with
  | .ok (_, w) => w
  | .error w => w

/-- One space (entity 0). -/
def cw1 : World := okWorld (World.empty.create_space vK)

/-- Two spaces (entities 0, 1). -/
def cw2 : World := okWorld (cw1.create_space vK)

/-- Two spaces joined by a portal (portal 2, portal objects 3 in space 0 and
4 in space 1). -/
def cwP : World := okWorld (cw2.create_portal vK (0, 1))

/-- Two spaces joined by two parallel portals (second portal 5, portal
objects 6, 7): a simple path can leave space 0 and return to it. -/
def cwP2 : World := okWorld (cwP.create_portal vK (0, 1))

/-- Three spaces (0, 1, 2). -/
def cw3 : World := okWorld (cw2.create_space vK)

/-- Three spaces with a portal 0↔1. -/
def cw3a : World := okWorld (cw3.create_portal vK (0, 1))

/-- Three spaces chained 0↔1↔2 with no direct portal 0↔2. -/
def cw3b : World := okWorld (cw3a.create_portal vK (1, 2))

theorem step_cw1 : World.empty.create_space vK = .ok (0, cw1) := rfl

theorem step_cw2 : cw1.create_space vK = .ok (1, cw2) := rfl

theorem step_cwP : cw2.create_portal vK (0, 1) = .ok (2, cwP) := rfl

theorem step_cwP2 : cwP.create_portal vK (0, 1) = .ok (5, cwP2) := rfl

theorem step_cw3 : cw2.create_space vK = .ok (2, cw3) := rfl

theorem step_cw3a : cw3.create_portal vK (0, 1) = .ok (3, cw3a) := rfl

theorem step_cw3b : cw3a.create_portal vK (1, 2) = .ok (6, cw3b) := rfl

theorem reach_cw1 : Reachable cw1 :=
  Reachable.create_space Reachable.init step_cw1

theorem reach_cw2 : Reachable cw2 :=
  Reachable.create_space reach_cw1 step_cw2

theorem reach_cwP : Reachable cwP :=
  Reachable.create_portal reach_cw2 step_cwP

theorem reach_cwP2 : Reachable cwP2 :=
  Reachable.create_portal reach_cwP step_cwP2

theorem reach_cw3 : Reachable cw3 :=
  Reachable.create_space reach_cw2 step_cw3

theorem reach_cw3a : Reachable cw3a :=
  Reachable.create_portal reach_cw3 step_cw3a

theorem reach_cw3b : Reachable cw3b :=
  Reachable.create_portal reach_cw3a step_cw3b

/-- Witness for C1: on the concrete two-space world, creating the portal
caches distance 2 for `{0, 1}` and each space sees the other. -/
theorem claim1_witness :
    alookup (pairOf 0 1) cwP.space_distances = some 2 ∧
    1 ∈ cwP.spaces_by_distance 0 ∧ 0 ∈ cwP.spaces_by_distance 1 :=
  claim1_portal_distance_two reach_cw2 rfl rfl (by decide) step_cwP

/-! ## Claim C2 -/

/-- C2 counterexample: the claim says the cache never holds an entry for a
pair `(s, s)`.  On the reachable world with two parallel portals between
spaces 0 and 1, a simple path leaves space 0 and returns to it through
space 1, so the cache maps `(0, 0)` to 2 and `spaces_by_distance(0)` yields
0 itself. -/
theorem claim2_counterexample :
    Reachable cwP2 ∧ alookup (pairOf 0 0) cwP2.space_distances = some 2 ∧
    0 ∈ cwP2.spaces_by_distance 0 :=
  ⟨reach_cwP2, by decide, by decide⟩

/-- C2 (amended): for every world state reachable through the public
mutation API, every space-distance cache entry has distance at least 2
(single-space paths are filtered out); however an entry for a pair `(s, s)`
can exist — when a simple path leaves `s` and returns through at least one
other space — and then `spaces_by_distance(s)` yields `s` itself. -/
theorem claim2_amended {w : World} (hr : Reachable w) :
    ∀ p ∈ w.space_distances, 2 ≤ p.2 := by
  have hwf := reachable_wf hr
  have hsd := hwf.sync
  unfold Topo.sdOf at hsd
  split at hsd
  · simp at hsd
  · next ps hfp =>
      split at hsd
      · simp at hsd
      · next m hfold =>
          injection hsd with h'
          intro p hp
          rw [← h'] at hp
          exact sdFold_ge2 hfold (by simp) p hp

/-- Witness for C2 (amended) at the self-distance entry of the two-portal
world. -/
theorem claim2_witness : 2 ≤ ((pairOf 0 0, 2) : (Entity × Entity) × Nat).2 :=
  claim2_amended reach_cwP2 (pairOf 0 0, 2) (by decide)

/-! ## Claim C5 -/

/-- The claim's "a portal links `a` and `b`": some registered portal object
sits in one of the two spaces with its paired object in the other. -/
def portalLinks (w : World) (a b : Entity) : Prop :=
  ∃ p ∈ w.portal_objects,
    (w.object_space p.1 = some a ∧ w.object_space p.2.target_object = some b) ∨
    (w.object_space p.1 = some b ∧ w.object_space p.2.target_object = some a)

instance (w : World) (a b : Entity) : Decidable (portalLinks w a b) := by
  unfold portalLinks
  infer_instance

/-- C5 counterexample: the claim says two created Spaces with no portal
between them and no shared local Areas never appear in each other's
`spaces_by_distance`.  In the reachable chain world 0↔1↔2 there is no
portal between 0 and 2 and no shared area, yet `spaces_by_distance(0)`
yields 2 (through the intermediate space, at distance 3). -/
theorem claim5_counterexample :
    Reachable cw3b ∧ ¬ portalLinks cw3b 0 2 ∧
    (¬ ∃ x ∈ cw3b.topo.child_objects 0, x ∈ cw3b.topo.child_objects 2) ∧
    2 ∈ cw3b.spaces_by_distance 0 :=
  ⟨reach_cw3b, by decide, by decide, by decide⟩

/-- C5 (amended): the hypothesis must exclude indirect connections as well —
for every reachable world state, if no enumerated simple area-path has its
end areas in the spaces `{a, b}`, then `spaces_by_distance(a)` never yields
`b`.  (Two spaces joined only through intermediate spaces are connected by
such a path and are yielded.) -/
theorem claim5_amended {w : World} {a b : Entity} {ps : List (List Entity)}
    (hr : Reachable w) (hfp : w.topo.findPaths = some ps)
    (hnc : ∀ p ∈ ps, ¬ connectsPair w.topo p (pairOf a b)) :
    b ∉ w.spaces_by_distance a := by
  intro hmem
  rw [mem_spaces_by_distance] at hmem
  obtain ⟨hb, d, hd⟩ := hmem
  have hwf := reachable_wf hr
  have hsd := hwf.sync
  unfold Topo.sdOf at hsd
  split at hsd
  · simp at hsd
  · next ps' hfp' =>
      split at hsd
      · simp at hsd
      · next m hfold =>
          injection hsd with h'
          rw [hfp] at hfp'
          injection hfp' with hps
          subst hps
          have hk : (alookup (pairOf a b) m).isSome := by
            rw [h', hd]
            rfl
          rcases sdFold_key_source hfold hk with h1 | ⟨p, hp, hc⟩
          · simp [alookup] at h1
          · exact hnc p hp hc

/-- Witness for C5 (amended): two disconnected spaces never see each other. -/
theorem claim5_witness : 1 ∉ cw2.spaces_by_distance 0 :=
  claim5_amended reach_cw2 rfl (by simp)

/-! ## Claim C3 -/

theorem aremove_idem {α β : Type} [DecidableEq α] (k : α) (l : List (α × β)) :
    aremove k (aremove k l) = aremove k l := by
  induction l with
  | nil => rfl
  | cons p r ih =>
      by_cases h : p.1 = k
      · simp [aremove, h]
      · simp [aremove, h]

theorem aremove_map_scrub (e : Entity) (l : List (Entity × EntityMeta)) :
    aremove e (l.map (scrubObserver e)) = (aremove e l).map (scrubObserver e) := by
  induction l with
  | nil => rfl
  | cons q r ih =>
      by_cases h : q.1 = e
      · simpa [aremove, scrubObserver_eq, h] using ih
      · simpa [aremove, scrubObserver_eq, h] using ih

theorem scrubObserver_idem (e : Entity) (q : Entity × EntityMeta) :
    scrubObserver e (scrubObserver e q) = scrubObserver e q := by
  simp only [scrubObserver_eq, scrubFun]
  rw [aremove_idem]

/-- The world after `cw1.set_agent_attribute_value 5 0 vK vK`: entity 5 does
not exist but is recorded as an observer key on entity 0. -/
def cwObs : World :=
  match cw1.set_agent_attribute_value 5 0 vK vK with
  | .ok w => w
  | .error _ => cw1

/-- C3 counterexample: entity 5 has no meta record in `cwObs`, yet
`despawn(5)` is not a no-op there — it removes 5 as an observer key from
entity 0's agent-scoped attribute map.  The "when e already has no meta
record the call is a no-op" conjunct of the claim is false. -/
theorem claim3_counterexample :
    cwObs.contains 5 = false ∧ cwObs.despawn 5 ≠ cwObs :=
  ⟨by decide, by decide⟩

/-- C3 (amended): after `despawn(e)`, `contains(e)` is false and no
remaining entity's agent-scoped attribute map contains `e` as an observer
key; `despawn` raises no error (it is a total operation), and a second
`despawn(e)` leaves the state unchanged (idempotence).  However, when `e`
has no meta record the call need not be a no-op: it still scrubs `e`'s
observer-keyed attribute maps from other entities. -/
theorem claim3_amended :
    (∀ (w : World) (e : Entity), (w.despawn e).contains e = false) ∧
    (∀ (w : World) (e x : Entity) (m : EntityMeta),
      alookup x (w.despawn e).meta = some m →
      alookup e m.agent_attributes = none) ∧
    (∀ (w : World) (e : Entity), (w.despawn e).despawn e = w.despawn e) := by
  refine ⟨?_, ?_, ?_⟩
  · intro w e
    unfold World.contains
    rw [despawn_meta_lookup]
    simp
  · intro w e x m h
    rw [despawn_meta_lookup] at h
    by_cases hx : x = e
    · simp [hx] at h
    · simp only [hx, if_neg, not_false_iff] at h
      cases hm : alookup x w.meta with
      | none => rw [hm] at h; simp at h
      | some m0 =>
          rw [hm] at h
          simp only [Option.map_some', Option.some.injEq] at h
          subst h
          exact alookup_aremove_self e m0.agent_attributes
  · intro w e
    have hcomp : scrubObserver e ∘ scrubObserver e = scrubObserver e :=
      funext (scrubObserver_idem e)
    have hm : (aremove e ((aremove e w.meta).map (scrubObserver e))).map
        (scrubObserver e) = (aremove e w.meta).map (scrubObserver e) := by
      rw [aremove_map_scrub, aremove_idem, List.map_map, hcomp]
    exact congrArg (fun M => { w with meta := M }) hm

/-- Witness for C3 (amended), exercising the observer-scrub conjunct on the
despawned concrete world. -/
def cwObsMeta : EntityMeta :=
  (alookup 0 (cwObs.despawn 5).meta).getD emptyMeta

theorem claim3_witness : alookup 5 cwObsMeta.agent_attributes = none :=
  claim3_amended.2.1 cwObs 5 0 cwObsMeta (by decide)

/-! ## Claim C4 -/

def isErr {ε α : Type} : Except ε α → Bool
  | .error _ => true
  | .ok _ => false

/-- C4: every global attribute/tag accessor returns the `InvalidEntity`
error exactly when the target entity has no meta record, and succeeds
otherwise.  In this embedding these accessors are total functions into
`Except InvalidEntity _` with no fault channel (the source never panics
here), and the error is raised before any mutation, so an erroring call
leaves the world unchanged by construction. -/
theorem claim4_invalid_entity_iff (w : World) (e : Entity) (a v t : Value) :
    isErr (w.set_global_attribute_value e a v) = !w.contains e ∧
    isErr (w.clear_global_attribute_value e a) = !w.contains e ∧
    isErr (w.global_attribute_value e a) = !w.contains e ∧
    isErr (w.global_attributes e) = !w.contains e ∧
    isErr (w.set_global_tag e t) = !w.contains e ∧
    isErr (w.clear_global_tag e t) = !w.contains e ∧
    isErr (w.global_tags e) = !w.contains e ∧
    isErr (w.contains_global_tag e t) = !w.contains e := by
  cases h : alookup e w.meta with
  | none =>
      refine ⟨?_, ?_, ?_, ?_, ?_, ?_, ?_, ?_⟩ <;>
        simp [isErr, World.contains, World.set_global_attribute_value,
          World.clear_global_attribute_value, World.global_attribute_value,
          World.global_attributes, World.set_global_tag,
          World.clear_global_tag, World.global_tags,
          World.contains_global_tag, h]
  | some m =>
      refine ⟨?_, ?_, ?_, ?_, ?_, ?_, ?_, ?_⟩ <;>
        simp [isErr, World.contains, World.set_global_attribute_value,
          World.clear_global_attribute_value, World.global_attribute_value,
          World.global_attributes, World.set_global_tag,
          World.clear_global_tag, World.global_tags,
          World.contains_global_tag, h]

/-! ## Claim C6 -/

instance {ε α : Type} [DecidableEq ε] [DecidableEq α] :
    DecidableEq (Except ε α) := fun x y =>
  match x, y with
  | .error a, .error b =>
      if h : a = b then .isTrue (by rw [h])
      else .isFalse (fun hc => h (by injection hc))
  | .ok a, .ok b =>
      if h : a = b then .isTrue (by rw [h])
      else .isFalse (fun hc => h (by injection hc))
  | .error _, .ok _ => .isFalse (fun hc => by injection hc)
  | .ok _, .error _ => .isFalse (fun hc => by injection hc)

/-- A world two allocations away from entity-counter exhaustion, holding two
spaces.  (Reachable in principle via 2^32 - 2 allocations; written out
literally because that trace is astronomically long.) -/
def wBig : World :=
  { next_entity_id := entityIdLimit - 2,
    meta := [(0, emptyMeta), (1, emptyMeta)],
    spaces := [0, 1], object_parents := [], kinds := [(0, vK), (1, vK)],
    portals := [], portal_objects := [], paths := [], space_distances := [],
    agent_locations := [], agent_position := [] }

/-- The state at the moment `create_portal` faults on `wBig`. -/
def wBigErr : World :=
  match wBig.create_portal vK (0, 1) with
  | .error w => w
  | .ok (_, w) => w

/-- C6 counterexample: on `wBig`, `create_portal` spawns the portal entity
and registers it, then faults with counter exhaustion while spawning the
first portal object.  The state at the fault differs from the input (the
portal is already registered), so the fault does not occur "before any
state is mutated". -/
theorem claim6_counterexample :
    wBig.create_portal vK (0, 1) = .error wBigErr ∧
    wBigErr.portals ≠ wBig.portals ∧ wBigErr ≠ wBig :=
  ⟨rfl, by decide, by decide⟩

/-- C6 (amended): assertion-guarded precondition failures fault before any
mutation (the fault state equals the input world), and every successful
creation leaves the caches fully recomputed from the final topology; but
entity-counter exhaustion inside `create_portal` can fault after the portal
entity is already registered, so such a fault does not occur "before any
state is mutated" — the partial state is unobservable only because the
process aborts. -/
theorem claim6_amended :
    (∀ (w : World) (k : Value) (p : Entity),
      (w.is_space p || w.is_object p) = false → w.create_object k p = .error w) ∧
    (∀ (w : World) (k : Value) (s : Entity × Entity),
      w.is_space s.1 = false → w.create_portal k s = .error w) ∧
    (∀ (w : World) (k : Value) (s : Entity × Entity),
      w.is_space s.1 = true → w.is_space s.2 = false →
      w.create_portal k s = .error w) ∧
    (∀ (w : World) (l : Entity),
      w.is_area l = false → w.create_agent l = .error w) ∧
    (∀ (w : World) (k : Value) (e : Entity) (w' : World),
      w.create_space k = .ok (e, w') →
      Topo.sdOf w'.topo = some w'.space_distances) ∧
    (∀ (w : World) (k : Value) (p e : Entity) (w' : World),
      w.create_object k p = .ok (e, w') →
      Topo.sdOf w'.topo = some w'.space_distances) ∧
    (∀ (w : World) (k : Value) (s : Entity × Entity) (e : Entity) (w' : World),
      w.create_portal k s = .ok (e, w') →
      Topo.sdOf w'.topo = some w'.space_distances) := by
  refine ⟨?_, ?_, ?_, ?_, ?_, ?_, ?_⟩
  · intro w k p h
    simp [World.create_object, h]
  · intro w k s h
    simp [World.create_portal, h]
  · intro w k s h1 h2
    simp [World.create_portal, h1, h2]
  · intro w l h
    simp [World.create_agent, h]
  · intro w k e w' h
    exact (create_space_ok_spec h).2.2.2.2.2.2.2.2.2.2
  · intro w k p e w' h
    exact (create_object_ok_spec h).2.2.2.2.2.2.2.2.2.2.2
  · intro w k s e w' h
    obtain ⟨a, b⟩ := s
    exact (create_portal_ok_spec h).2.2.2.2.2.2.2.2.2.2.2

/-- Witness for C6 (amended): a precondition fault on the empty world
returns it unchanged, and a successful `create_space` leaves a recomputed
cache. -/
theorem claim6_witness :
    World.empty.create_object vK 0 = .error World.empty ∧
    Topo.sdOf cw1.topo = some cw1.space_distances :=
  ⟨claim6_amended.1 World.empty vK 0 (by decide),
   claim6_amended.2.2.2.2.1 World.empty vK 0 cw1 step_cw1⟩

/-! ## Claim C7 -/

theorem setMeta_lookup (w : World) (e : Entity) (m' : EntityMeta) (x : Entity) :
    alookup x (setMeta w e m').meta =
      if x = e then some m' else alookup x w.meta := by
  show alookup x (ainsert e m' w.meta) = _
  by_cases hx : x = e
  · subst hx
    rw [alookup_ainsert_self, if_pos rfl]
  · rw [alookup_ainsert_ne _ _ hx, if_neg hx]

/-- Worlds whose meta maps agree on the agent-scoped tag components give
the same `has_agent_tag` answers. -/
theorem has_agent_tag_congr {w w' : World}
    (h : ∀ x, (alookup x w'.meta).map EntityMeta.agent_tags =
      (alookup x w.meta).map EntityMeta.agent_tags) :
    ∀ (a x : Entity) (t : Value), w'.has_agent_tag a x t = w.has_agent_tag a x t := by
  intro a x t
  unfold World.has_agent_tag
  have hx := h x
  cases h1 : alookup x w'.meta with
  | none =>
      cases h2 : alookup x w.meta with
      | none => rfl
      | some m => rw [h1, h2] at hx; simp at hx
  | some m' =>
      cases h2 : alookup x w.meta with
      | none => rw [h1, h2] at hx; simp at hx
      | some m =>
          rw [h1, h2] at hx
          simp only [Option.map_some', Option.some.injEq] at hx
          simp only [hx]

/-- Worlds whose meta maps agree on the global tag sets give the same
`contains_global_tag` answers. -/
theorem contains_global_tag_congr {w w' : World}
    (h : ∀ x, (alookup x w'.meta).map EntityMeta.global_tags =
      (alookup x w.meta).map EntityMeta.global_tags) :
    ∀ (x : Entity) (t : Value),
      w'.contains_global_tag x t = w.contains_global_tag x t := by
  intro x t
  unfold World.contains_global_tag
  have hx := h x
  cases h1 : alookup x w'.meta with
  | none =>
      cases h2 : alookup x w.meta with
      | none => rfl
      | some m => rw [h1, h2] at hx; simp at hx
  | some m' =>
      cases h2 : alookup x w.meta with
      | none => rw [h1, h2] at hx; simp at hx
      | some m =>
          rw [h1, h2] at hx
          simp only [Option.map_some', Option.some.injEq] at hx
          simp only [hx]

/-- C7: setting a global tag on a valid entity leaves every agent-scoped
attribute and tag store unchanged (so every `has_agent_tag` answer is
preserved), and setting an agent-scoped tag leaves the global attribute and
tag stores unchanged (so every `contains_global_tag` answer is preserved);
neither store is consulted as a fallback for the other. -/
theorem claim7_store_isolation :
    (∀ (w : World) (e : Entity) (tag : Value) (w' : World),
      w.set_global_tag e tag = .ok w' →
      (∀ x, (alookup x w'.meta).map
          (fun m => (m.agent_attributes, m.agent_tags)) =
        (alookup x w.meta).map
          (fun m => (m.agent_attributes, m.agent_tags))) ∧
      ∀ (a x : Entity) (t' : Value),
        w'.has_agent_tag a x t' = w.has_agent_tag a x t') ∧
    (∀ (w : World) (ag e : Entity) (tag : Value) (w' : World),
      w.set_agent_tag ag e tag = .ok w' →
      (∀ x, (alookup x w'.meta).map
          (fun m => (m.global_attributes, m.global_tags)) =
        (alookup x w.meta).map
          (fun m => (m.global_attributes, m.global_tags))) ∧
      ∀ (x : Entity) (t' : Value),
        w'.contains_global_tag x t' = w.contains_global_tag x t') := by
  constructor
  · intro w e tag w' hok
    simp only [World.set_global_tag] at hok
    split at hok
    · next m hm =>
        injection hok with h'
        subst h'
        constructor
        · intro x
          rw [setMeta_lookup]
          by_cases hx : x = e
          · subst hx
            rw [if_pos rfl, hm]
            rfl
          · rw [if_neg hx]
        · apply has_agent_tag_congr
          intro x
          rw [setMeta_lookup]
          by_cases hx : x = e
          · subst hx
            rw [if_pos rfl, hm]
            rfl
          · rw [if_neg hx]
    · simp at hok
  · intro w ag e tag w' hok
    simp only [World.set_agent_tag] at hok
    split at hok
    · next m hm =>
        injection hok with h'
        subst h'
        constructor
        · intro x
          rw [setMeta_lookup]
          by_cases hx : x = e
          · subst hx
            rw [if_pos rfl, hm]
            rfl
          · rw [if_neg hx]
        · apply contains_global_tag_congr
          intro x
          rw [setMeta_lookup]
          by_cases hx : x = e
          · subst hx
            rw [if_pos rfl, hm]
            rfl
          · rw [if_neg hx]
    · simp at hok

/-- Worlds used by the C7 witness: one global-tag write and one agent-tag
write on the two-space world. -/
def cwGTag : World :=
  match cw2.set_global_tag 0 vK with
  | .ok w => w
  | .error _ => cw2

def cwATag : World :=
  match cw2.set_agent_tag 1 0 vK with
  | .ok w => w
  | .error _ => cw2

/-- Witness for C7 on the concrete two-space world: one preserved answer of
each kind. -/
theorem claim7_witness :
    cwGTag.has_agent_tag 1 0 vK = cw2.has_agent_tag 1 0 vK ∧
    cwATag.contains_global_tag 0 vK = cw2.contains_global_tag 0 vK :=
  ⟨(claim7_store_isolation.1 cw2 0 vK cwGTag rfl).2 1 0 vK,
   (claim7_store_isolation.2 cw2 1 0 vK cwATag rfl).2 0 vK⟩

/-! ## Claim C8 -/

theorem alookup_eq_none_of_keys_lt {β : Type} {l : List (Entity × β)}
    {n : Entity} (h : ∀ p ∈ l, p.1 < n) : alookup n l = none := by
  induction l with
  | nil => rfl
  | cons p r ih =>
      have hp := h p (List.mem_cons_self _ _)
      have hne : p.1 ≠ n := Nat.ne_of_lt hp
      simp only [alookup, hne, if_neg, not_false_iff]
      exact ih (fun q hq => h q (List.mem_cons_of_mem _ hq))

/-- C8: `spawn` returns the current counter value and bumps it by one (so
successive spawns return strictly increasing identifiers), `despawn` never
touches the counter (no identifier is ever made available for reuse), the
counter at `u32::MAX` makes `spawn` fault instead of wrapping, and on every
reachable world the identifier returned by `spawn` is fresh (not a live
entity). -/
theorem claim8_monotonic_ids :
    (∀ (w : World) (e : Entity) (w' : World), w.spawn = .ok (e, w') →
      e = w.next_entity_id ∧ w'.next_entity_id = w.next_entity_id + 1) ∧
    (∀ (w : World) (e : Entity),
      (w.despawn e).next_entity_id = w.next_entity_id) ∧
    (∀ w : World, w.next_entity_id = entityIdLimit - 1 → w.spawn = .error w) ∧
    (∀ (w : World) (e : Entity) (w' : World), Reachable w →
      w.spawn = .ok (e, w') → w.contains e = false) := by
  refine ⟨?_, ?_, ?_, ?_⟩
  · intro w e w' h
    obtain ⟨he, _, hw⟩ := spawn_ok_spec h
    subst hw
    exact ⟨he, rfl⟩
  · intro w e
    rfl
  · intro w h
    have hlt : ¬ (w.next_entity_id + 1 < entityIdLimit) := by
      rw [h]
      decide
    simp [World.spawn, hlt]
  · intro w e w' hr h
    obtain ⟨rfl, _, _⟩ := spawn_ok_spec h
    unfold World.contains
    rw [alookup_eq_none_of_keys_lt (reachable_wf hr).meta_lt]
    rfl

def cwSpawn : World := okWorld World.empty.spawn

def wMax : World := { World.empty with next_entity_id := entityIdLimit - 1 }

/-- Witness for C8: a concrete spawn on the empty world and the fault at
the counter limit. -/
theorem claim8_witness :
    ((0 : Entity) = World.empty.next_entity_id ∧
      cwSpawn.next_entity_id = World.empty.next_entity_id + 1) ∧
    wMax.spawn = .error wMax ∧
    World.empty.contains 0 = false :=
  ⟨claim8_monotonic_ids.1 World.empty 0 cwSpawn rfl,
   claim8_monotonic_ids.2.2.1 wMax rfl,
   claim8_monotonic_ids.2.2.2 World.empty 0 cwSpawn Reachable.init rfl⟩

/-! ## Claim C9 -/

/-- The world where agent 1 holds an agent-scoped tag belief on entity 0. -/
def cwTag : World :=
  match cw2.set_agent_tag 1 0 vK with
  | .ok w => w
  | .error _ => cw2

/-- C9: `despawn(e)` scrubs `e` as an observer key only from agent-scoped
ATTRIBUTE maps; every remaining entity's agent-scoped TAG map — including
its namespace keyed by the despawned observer `e` — survives intact, and
there is a world state where `has_agent_tag(e, x, t)` still returns
`Ok(true)` after `e` was despawned. -/
theorem claim9_agent_tags_survive :
    (∀ (w : World) (e x : Entity),
      (alookup x (w.despawn e).meta).map EntityMeta.agent_tags =
        if x = e then none
        else (alookup x w.meta).map EntityMeta.agent_tags) ∧
    (cwTag.despawn 1).has_agent_tag 1 0 vK = .ok true := by
  constructor
  · intro w e x
    rw [despawn_meta_lookup]
    by_cases hx : x = e
    · simp [hx]
    · simp only [hx, if_neg, not_false_iff]
      cases alookup x w.meta with
      | none => rfl
      | some m => rfl
  · decide

/-! ## Claim C10 -/

/-- C10: for an entity with no meta record, `set_identifier` faults
(`expect("valid entity")` — a process abort, modelled as `none`) instead of
returning the recoverable `InvalidEntity` error, while the read accessor
`identifier` silently returns `None`; the attribute/tag accessors by
contrast report `InvalidEntity` on both reads and writes. -/
theorem claim10_identifier_asymmetry {w : World} {e : Entity} (s : String)
    (a t : Value) (h : w.contains e = false) :
    w.set_identifier e s = none ∧
    w.identifier e = none ∧
    w.global_attribute_value e a = .error .mk ∧
    w.set_global_tag e t = .error .mk := by
  have hl : alookup e w.meta = none := by
    unfold World.contains at h
    cases hx : alookup e w.meta with
    | none => rfl
    | some m => rw [hx] at h; simp at h
  refine ⟨?_, ?_, ?_, ?_⟩ <;>
    simp [World.set_identifier, World.identifier,
      World.global_attribute_value, World.set_global_tag, hl]

/-- Witness for C10 at entity 0 of the empty world. -/
theorem claim10_witness :
    World.empty.set_identifier 0 "x" = none ∧
    World.empty.identifier 0 = none ∧
    World.empty.global_attribute_value 0 vK = .error .mk ∧
    World.empty.set_global_tag 0 vK = .error .mk :=
  claim10_identifier_asymmetry "x" vK vK (by decide)
